import Mathlib

/-!
Verification of the ML pipeline graph compiler (`src/utils/pipelineToCode.ts`)
of the Visual Node AI Editor.

The TypeScript source is shallowly embedded: nodes and connections become
structures, the validator and the code generator become total functions over
them, thrown `PipelineValidationError`s become `Except String`, the browser
`localStorage` read in the data-loader emission rule becomes an explicit
`storage : String → Option String` argument, and JavaScript `Map`s (which
iterate in insertion order) become association lists with insertion-order
preserving update.  Numeric control values are modelled as exact rationals.
-/

set_option maxHeartbeats 1000000
set_option maxRecDepth 10000

/-- JavaScript `a || d` for an optional string control value: `undefined`
and the empty string are falsy and select the default. -/
def jsOrStr (v : Option String) (d : String) : String :=
  match v with
  | none => d
  | some s => if s = "" then d else s

/-- JavaScript `a || d` for an optional numeric (rational) control value:
`undefined` and `0` are falsy and select the default. -/
def jsOrRat (v : Option Rat) (d : Rat) : Rat :=
  match v with
  | none => d
  | some x => if x = 0 then d else x

/-- JavaScript `a || d` for an optional natural-number control value:
`undefined` and `0` are falsy and select the default. -/
def jsOrNat (v : Option Nat) (d : Nat) : Nat :=
  match v with
  | none => d
  | some x => if x = 0 then d else x

/-- `s.replace(/[^a-zA-Z0-9]/g, '_')`: every character that is not an ASCII
letter or digit is replaced by an underscore. -/
def sanitizeId (s : String) : String :=
  String.mk (s.toList.map (fun c => if c.isAlphanum then c else '_'))

/-- `Number.prototype.toFixed(2)` on the exact rational value: round to the
nearest hundredth (ties away from zero) and print with two decimals. -/
def toFixed2 (x : Rat) : String :=
  let neg := x < 0
  let n : Nat := (Int.floor (|x| * 100 + 1/2)).toNat
  let ip := n / 100
  let fp := n % 100
  (if neg then "-" else "") ++ toString ip ++ "." ++
    (if fp < 10 then "0" else "") ++ toString fp

/-- The base64 alphabet, used by the browser `btoa`. -/
def base64Alphabet : List Char :=
  "ABCDEFGHIJKLMNOPQRSTUVWXYZabcdefghijklmnopqrstuvwxyz0123456789+/".toList

/-- One base64 output character. -/
def base64Char (n : Nat) : Char := (base64Alphabet.getD n 'A')

/-- Base64-encode a byte list, with `=` padding. -/
def base64Encode : List UInt8 → String
  | [] => ""
  | [a] =>
    let x := a.toNat
    String.mk [base64Char (x / 4), base64Char (x % 4 * 16)] ++ "=="
  | [a, b] =>
    let x := a.toNat; let y := b.toNat
    String.mk [base64Char (x / 4), base64Char (x % 4 * 16 + y / 16),
               base64Char (y % 16 * 4)] ++ "="
  | a :: b :: c :: rest =>
    let x := a.toNat; let y := b.toNat; let z := c.toNat
    String.mk [base64Char (x / 4), base64Char (x % 4 * 16 + y / 16),
               base64Char (y % 16 * 4 + z / 64), base64Char (z % 64)] ++
    base64Encode rest

/-- `btoa(unescape(encodeURIComponent(s)))`: base64 of the UTF-8 bytes. -/
def btoaUtf8 (s : String) : String :=
  base64Encode s.toUTF8.toList

/-! ### Insertion-order association lists (the model of JavaScript `Map`) -/

/-- `Map.get`. -/
def getAL {α : Type} (m : List (String × α)) (k : String) : Option α :=
  (m.find? (fun p => p.1 = k)).map (·.2)

/-- `Map.set`: updates the value in place if the key is present (keeping its
insertion position), otherwise appends the binding at the end. -/
def setAL {α : Type} (m : List (String × α)) (k : String) (v : α) :
    List (String × α) :=
  if m.any (fun p => p.1 = k) then
    m.map (fun p => if p.1 = k then (k, v) else p)
  else m ++ [(k, v)]

/-- `map.get(k)?.push(v)` on a map of lists: appends to the entry's list when
the key is present and does nothing otherwise. -/
def pushAL (m : List (String × List String)) (k : String) (v : String) :
    List (String × List String) :=
  m.map (fun p => if p.1 = k then (p.1, p.2 ++ [v]) else p)

/-! ### Data model (`NodeData`, `ConnectionData`, `GraphData`) -/

/-- The control values read by the code generator.  The source stores them in
an untyped `Record<string, any>`; only the keys actually read are modelled,
each as an optional typed field (`none` = key absent / `undefined`). -/
structure Controls where
  fileName : Option String := none
  ratio : Option Rat := none
  targetColumn : Option String := none
  method : Option String := none
  k : Option Nat := none
  algorithm : Option String := none
  n_estimators : Option Nat := none
  layers : Option String := none
  epochs : Option Nat := none
deriving DecidableEq, Repr

/-- `NodeData`.  The `position` layout field is never read by the compiler and
is modelled as a pair of integers. -/
structure NodeData where
  id : String
  label : String
  kind : String
  controls : Controls := {}
  position : Int × Int := (0, 0)
deriving DecidableEq, Repr

/-- `ConnectionData`. -/
structure ConnectionData where
  id : String
  source : String
  target : String
  sourceOutput : String
  targetInput : String
deriving DecidableEq, Repr

/-- `GraphData`. -/
structure GraphData where
  nodes : List NodeData
  connections : List ConnectionData
deriving DecidableEq, Repr

/-! ### `validatePipelineStructure` -/

/-- The kinds checked by the required-input validation (check 3). -/
def modelKinds : List String := ["classifier", "regressor", "neuralNet"]

/-- The body of the `nodes.forEach` loop of check 3 of
`validatePipelineStructure`: throws for a `dataSplit` node with no incoming
connection and for a model-kind node missing `X_train` or `y_train`. -/
def checkNodeInputs (connections : List ConnectionData) (node : NodeData) :
    Except String Unit :=
  let incoming := connections.filter (fun c => c.target = node.id)
  if node.kind = "dataSplit" ∧ incoming.length = 0 then
    .error (node.label ++ ": DataSplit 노드는 데이터 입력이 필요합니다.")
  else if node.kind ∈ modelKinds then
    let hasXTrain := incoming.any (fun c => c.targetInput = "X_train")
    let hasYTrain := incoming.any (fun c => c.targetInput = "y_train")
    if ¬hasXTrain ∨ ¬hasYTrain then
      .error (node.label ++ ": 모델 노드는 X_train과 y_train이 모두 필요합니다.")
    else .ok ()
  else .ok ()

/-- `validatePipelineStructure`: (1) a `dataLoader` node must exist; (2) no
node other than a `dataLoader` may be disconnected (appear in no connection,
neither as source nor as target); (3) per-node required-input checks, in node
order, aborting at the first failure.  A thrown `PipelineValidationError`
becomes `Except.error` carrying the message. -/
def validatePipelineStructure (nodes : List NodeData)
    (connections : List ConnectionData) : Except String Unit := do
  let hasDataLoader := nodes.any (fun n => n.kind = "dataLoader")
  if ¬hasDataLoader then
    throw "파이프라인에 DataLoader 노드가 필요합니다."
  let connectedIds :=
    connections.foldl (fun acc c => acc ++ [c.source, c.target]) []
  let orphanedNodes := nodes.filter (fun n =>
    n.kind ≠ "dataLoader" ∧ ¬connectedIds.contains n.id)
  if orphanedNodes.length > 0 then
    let orphanLabels := String.intercalate ", " (orphanedNodes.map (·.label))
    throw ("연결되지 않은 노드가 있습니다: " ++ orphanLabels)
  nodes.forM (checkNodeInputs connections)

/-! ### `topologicalSort` (Kahn's algorithm, FIFO queue) -/

/-- One pass over the out-neighbors of a dequeued node: decrement each
neighbor's in-degree and enqueue it (at the back) when it reaches zero. -/
def relaxNeighbors (neighbors : List String)
    (st : List (String × Int) × List String) :
    List (String × Int) × List String :=
  neighbors.foldl (fun (st : List (String × Int) × List String) nb =>
    let d := ((getAL st.1 nb).getD 0) - 1
    (setAL st.1 nb d, if d = 0 then st.2 ++ [nb] else st.2)) st

/-- The `while (queue.length > 0)` loop of `topologicalSort`.  `fuel` bounds
the number of iterations; since every key of the in-degree map is enqueued at
most once, `nodes.length + connections.length` iterations always suffice. -/
def kahnLoop (graph : List (String × List String))
    (nodeMap : List (String × NodeData)) :
    Nat → List (String × Int) → List String → List NodeData → List NodeData
  | _, _, [], sorted => sorted
  | 0, _, _ :: _, sorted => sorted
  | fuel + 1, inDeg, nodeId :: rest, sorted =>
    let sorted' := match getAL nodeMap nodeId with
      | some n => sorted ++ [n]
      | none => sorted
    let st := relaxNeighbors ((getAL graph nodeId).getD []) (inDeg, rest)
    kahnLoop graph nodeMap fuel st.1 st.2 sorted'

/-- `topologicalSort`: Kahn's algorithm with a strictly FIFO queue.  The
adjacency and in-degree maps are built by iterating nodes and then
connections, so the seed queue enumerates zero-in-degree nodes in node
insertion order. -/
def topologicalSort (nodes : List NodeData)
    (connections : List ConnectionData) : List NodeData :=
  let graph0 := nodes.foldl (fun g n => setAL g n.id ([] : List String)) []
  let inDeg0 := nodes.foldl (fun m n => setAL m n.id (0 : Int)) []
  let st := connections.foldl
    (fun (st : List (String × List String) × List (String × Int)) c =>
      (pushAL st.1 c.source c.target,
       setAL st.2 c.target (((getAL st.2 c.target).getD 0) + 1)))
    (graph0, inDeg0)
  let queue0 := (st.2.filter (fun p => p.2 = 0)).map (·.1)
  let nodeMap := nodes.foldl (fun m n => setAL m n.id n) []
  kahnLoop st.1 nodeMap (nodes.length + connections.length) st.2 queue0 []

/-! ### `getSimpleVarName` -/

/-- The kind → base-name table of `getSimpleVarName`.  Note that
`classifier` and `regressor` share the base `model`, and that the ML kinds
`evaluate`, `predict` and `hyperparamTune` are absent (they fall back to the
base `step`), while the listed `evaluation` and `tuning` never occur. -/
def kindMap : List (String × String) :=
  [("dataLoader", "data"), ("dataSplit", "split"), ("scaler", "scaler"),
   ("featureSelection", "feature"), ("classifier", "model"),
   ("regressor", "model"), ("neuralNet", "nn"), ("evaluation", "eval"),
   ("tuning", "tuner")]

/-- `getSimpleVarName`: base name from `kindMap` (default `step`) plus a
per-kind running counter; the first occurrence is unsuffixed, the `i`-th
occurrence (`i ≥ 1`) is suffixed with `i + 1`.  The mutated `nodeIndex` map is
returned alongside the name. -/
def getSimpleVarName (node : NodeData) (nodeIndex : List (String × Nat)) :
    String × List (String × Nat) :=
  let baseName := jsOrStr (getAL kindMap node.kind) "step"
  let index := (getAL nodeIndex node.kind).getD 0
  let nodeIndex' := setAL nodeIndex node.kind (index + 1)
  (if index = 0 then baseName else baseName ++ toString (index + 1), nodeIndex')

/-- The variable-name assignment pass of `generatePythonCode`: walk the
scheduled nodes, threading the per-kind counter map, and record each node's
variable name in `varNameMap` (insertion order). -/
def assignVarNames (sortedNodes : List NodeData) :
    List (String × String) :=
  (sortedNodes.foldl (fun (st : List (String × String) × List (String × Nat)) node =>
    let r := getSimpleVarName node st.2
    (setAL st.1 node.id r.1, r.2)) ([], [])).1

/-! ### `nodeToCode` -/

/-- Helper of `nodeToCode`: the variable name of the source node connected to
`(targetNodeId, inputKey)`; falls back to the literal `data` when no such
connection exists, and to `step_<sanitized source id>` when the optional
`varNameMap` has no entry for the source. -/
def getSourceVarName (connections : List ConnectionData)
    (varNameMap : Option (List (String × String)))
    (targetNodeId inputKey : String) : String :=
  match connections.find? (fun c =>
      c.target = targetNodeId ∧ c.targetInput = inputKey) with
  | none => "data"
  | some conn =>
    jsOrStr (varNameMap.bind (fun m => getAL m conn.source))
      ("step_" ++ sanitizeId conn.source)

/-- Helper of `nodeToCode`: like `getSourceVarName` but suffixed with the
connection's `sourceOutput` socket name. -/
def getSourceOutputVar (connections : List ConnectionData)
    (varNameMap : Option (List (String × String)))
    (targetNodeId inputKey : String) : String :=
  match connections.find? (fun c =>
      c.target = targetNodeId ∧ c.targetInput = inputKey) with
  | none => "data"
  | some conn =>
    (jsOrStr (varNameMap.bind (fun m => getAL m conn.source))
      ("step_" ++ sanitizeId conn.source)) ++ "_" ++ conn.sourceOutput

/-- `dataLoader` emission, uploaded-CSV branch. -/
def dataLoaderStoredBlock (fileName base64Content varName : String) : String :=
  String.intercalate "\n"
    ["# Load Data from uploaded CSV: " ++ fileName,
     "import io",
     "import base64",
     "",
     "# Embedded CSV data (uploaded from browser)",
     "csv_content = base64.b64decode('" ++ base64Content ++ "').decode('utf-8')",
     varName ++ " = pd.read_csv(io.StringIO(csv_content))",
     "print(f\"Data loaded from " ++ fileName ++ ": \x7b" ++ varName ++ ".shape\x7d\")",
     "print(\"\\nFirst 5 rows:\")",
     "print(" ++ varName ++ ".head())"]

/-- `dataLoader` emission, file-path branch. -/
def dataLoaderFileBlock (fileName varName : String) : String :=
  String.intercalate "\n"
    ["# Load Data from file",
     varName ++ " = pd.read_csv('" ++ fileName ++ "')",
     "print(f\"Data loaded: \x7b" ++ varName ++ ".shape\x7d\")",
     "print(\"\\nFirst 5 rows:\")",
     "print(" ++ varName ++ ".head())"]

/-- `dataSplit` emission. -/
def dataSplitBlock (targetColumn sourceVar varName testSize : String) : String :=
  String.intercalate "\n"
    ["# Train/Test Split",
     "# Target column: '" ++ targetColumn ++ "'",
     "X_all = " ++ sourceVar ++ ".drop('" ++ targetColumn ++ "', axis=1)",
     "y_all = " ++ sourceVar ++ "['" ++ targetColumn ++ "']",
     varName ++ "_X_train, " ++ varName ++ "_X_test, " ++ varName ++
       "_y_train, " ++ varName ++ "_y_test = train_test_split(",
     "    X_all, y_all, test_size=" ++ testSize ++ ", random_state=42",
     ")",
     "print(f\"Train size: \x7b\x7blen(" ++ varName ++
       "_X_train)\x7d\x7d, Test size: \x7b\x7blen(" ++ varName ++
       "_X_test)\x7d\x7d\")",
     "print(f\"Target column: '" ++ targetColumn ++ "'\")"]

/-- `scaler` emission when the secondary `X_test` input is connected. -/
def scalerBothBlock (method varName xTrainVar xTestVar : String) : String :=
  "# Scale Features (Train and Test)\n" ++
  varName ++ " = " ++ method ++ "()\n" ++
  varName ++ "_X_train = " ++ varName ++ ".fit_transform(" ++ xTrainVar ++ ")\n" ++
  varName ++ "_X_test = " ++ varName ++ ".transform(" ++ xTestVar ++ ")\n" ++
  "print(\"Features scaled using " ++ method ++ "\")\n" ++
  "print(f\"Scaled train shape: \x7b" ++ varName ++ "_X_train.shape\x7d\")\n" ++
  "print(f\"Scaled test shape: \x7b" ++ varName ++ "_X_test.shape\x7d\")"

/-- `scaler` emission when only the primary `X_train` input is connected. -/
def scalerTrainOnlyBlock (method varName xTrainVar : String) : String :=
  "# Scale Features (Train only)\n" ++
  varName ++ " = " ++ method ++ "()\n" ++
  varName ++ "_X_train = " ++ varName ++ ".fit_transform(" ++ xTrainVar ++ ")\n" ++
  "print(\"Features scaled using " ++ method ++ "\")\n" ++
  "print(f\"Scaled train shape: \x7b" ++ varName ++ "_X_train.shape\x7d\")\n" ++
  "# Note: X_test not connected - only training data scaled"

/-- Missing-required-connection warning comment, shared shape across the
`featureSelection`, `classifier`, `regressor`, `neuralNet` and
`hyperparamTune` cases (only the closing line differs). -/
def missingConnWarning (hasX hasY : Bool) (closing : String) : String :=
  "# WARNING: Missing required connections!\n" ++
  (if ¬hasX then "#   - X_train input not connected\n" else "") ++
  (if ¬hasY then "#   - y_train input not connected\n" else "") ++
  closing

/-- `featureSelection` emission (connected case). -/
def featureSelectionBlock (method : String) (k : Nat)
    (varName nodeId xTrainVar yTrainVar : String) : String :=
  String.intercalate "\n"
    ["# Feature Selection",
     varName ++ " = " ++ method ++ "(k=" ++ toString k ++ ")",
     "step_" ++ nodeId ++ "_X_train = " ++ varName ++ ".fit_transform(" ++
       xTrainVar ++ ", " ++ yTrainVar ++ ")",
     "print(f\"Selected \x7bk\x7d best features from \x7b" ++ xTrainVar ++
       ".shape[1]\x7d features\")"]

/-- The classifier algorithm dispatch table (unknown values fall back to
`RandomForest`). -/
def classifierModelCode (algorithm : String) (nEstimators : Nat) : String :=
  if algorithm = "RandomForest" then
    "RandomForestClassifier(n_estimators=" ++ toString nEstimators ++ ", random_state=42)"
  else if algorithm = "LogisticRegression" then
    "LogisticRegression(random_state=42, max_iter=1000)"
  else if algorithm = "SVM" then "SVC(random_state=42)"
  else if algorithm = "DecisionTree" then "DecisionTreeClassifier(random_state=42)"
  else if algorithm = "KNN" then "KNeighborsClassifier(n_neighbors=5)"
  else if algorithm = "GradientBoosting" then
    "GradientBoostingClassifier(n_estimators=" ++ toString nEstimators ++ ", random_state=42)"
  else "RandomForestClassifier(n_estimators=" ++ toString nEstimators ++ ", random_state=42)"

/-- `classifier` emission (connected case). -/
def classifierBlock (nodeId modelCode algorithm xTrainVar yTrainVar : String) :
    String :=
  String.intercalate "\n"
    ["# Train Classifier",
     "step_" ++ nodeId ++ "_model = " ++ modelCode,
     "step_" ++ nodeId ++ "_model.fit(" ++ xTrainVar ++ ", " ++ yTrainVar ++ ")",
     "print(\"Model trained: " ++ algorithm ++ "\")",
     "print(f\"Training score: \x7bstep_" ++ nodeId ++ "_model.score(" ++
       xTrainVar ++ ", " ++ yTrainVar ++ "):.4f\x7d\")"]

/-- The regressor algorithm dispatch table (unknown values fall back to
`LinearRegression`). -/
def regressorModelCode (algorithm : String) : String :=
  if algorithm = "LinearRegression" then "LinearRegression()"
  else if algorithm = "Ridge" then "Ridge(random_state=42)"
  else if algorithm = "Lasso" then "Lasso(random_state=42)"
  else if algorithm = "RandomForestRegressor" then "RandomForestRegressor(random_state=42)"
  else if algorithm = "SVR" then "SVR()"
  else if algorithm = "GradientBoostingRegressor" then
    "GradientBoostingRegressor(random_state=42)"
  else "LinearRegression()"

/-- `regressor` emission (connected case). -/
def regressorBlock (nodeId modelCode algorithm xTrainVar yTrainVar : String) :
    String :=
  String.intercalate "\n"
    ["# Train Regressor",
     "step_" ++ nodeId ++ "_model = " ++ modelCode,
     "step_" ++ nodeId ++ "_model.fit(" ++ xTrainVar ++ ", " ++ yTrainVar ++ ")",
     "print(\"Model trained: " ++ algorithm ++ "\")",
     "print(f\"Training R² score: \x7bstep_" ++ nodeId ++ "_model.score(" ++
       xTrainVar ++ ", " ++ yTrainVar ++ "):.4f\x7d\")"]

/-- `neuralNet` emission (connected case). -/
def neuralNetBlock (nodeId layers : String) (epochs : Nat)
    (xTrainVar yTrainVar : String) : String :=
  String.intercalate "\n"
    ["# Train Neural Network",
     "step_" ++ nodeId ++ "_model = MLPClassifier(hidden_layer_sizes=(" ++
       layers ++ "), max_iter=" ++ toString epochs ++ ", random_state=42)",
     "step_" ++ nodeId ++ "_model.fit(" ++ xTrainVar ++ ", " ++ yTrainVar ++ ")",
     "print(\"Neural Network trained with layers: [" ++ layers ++ "]\")",
     "print(f\"Training score: \x7bstep_" ++ nodeId ++ "_model.score(" ++
       xTrainVar ++ ", " ++ yTrainVar ++ "):.4f\x7d\")"]

/-- Regression metric block of the `evaluate` case; `predVar` is either the
pre-computed prediction variable or the literal `y_pred`, and `header` and
`lead` distinguish the two sub-branches. -/
def evaluateRegressionMetrics (nodeId yTestVar predVar : String)
    (header : String) (lead : List String) : String :=
  String.intercalate "\n"
    ([header] ++ lead ++
     ["step_" ++ nodeId ++ "_metrics = \x7b",
      "    'mae': mean_absolute_error(" ++ yTestVar ++ ", " ++ predVar ++ "),",
      "    'mse': mean_squared_error(" ++ yTestVar ++ ", " ++ predVar ++ "),",
      "    'rmse': np.sqrt(mean_squared_error(" ++ yTestVar ++ ", " ++ predVar ++ ")),",
      "    'r2': r2_score(" ++ yTestVar ++ ", " ++ predVar ++ ")",
      "\x7d",
      "print(\"=\"*60)",
      "print(\"📊 Regression Model Evaluation Results\")",
      "print(\"=\"*60)",
      "print(f\"R² Score (Coefficient of Determination): \x7bstep_" ++ nodeId ++
        "_metrics['r2']:.4f\x7d\")",
      "print(f\"  → Explains \x7bstep_" ++ nodeId ++
        "_metrics['r2']*100:.2f\x7d% of variance\")",
      "print(f\"Mean Absolute Error (MAE): \x7bstep_" ++ nodeId ++
        "_metrics['mae']:.4f\x7d\")",
      "print(f\"Mean Squared Error (MSE): \x7bstep_" ++ nodeId ++
        "_metrics['mse']:.4f\x7d\")",
      "print(f\"Root Mean Squared Error (RMSE): \x7bstep_" ++ nodeId ++
        "_metrics['rmse']:.4f\x7d\")",
      "print(\"=\"*60)"])

/-- Classification metric block of the `evaluate` case. -/
def evaluateClassificationMetrics (nodeId yTestVar predVar : String)
    (header : String) (lead : List String) : String :=
  String.intercalate "\n"
    ([header] ++ lead ++
     ["step_" ++ nodeId ++ "_metrics = \x7b",
      "    'accuracy': accuracy_score(" ++ yTestVar ++ ", " ++ predVar ++ ")",
      "\x7d",
      "print(f\"Accuracy: \x7bstep_" ++ nodeId ++ "_metrics['accuracy']:.4f\x7d\")",
      "print(\"\\nClassification Report:\")",
      "print(classification_report(" ++ yTestVar ++ ", " ++ predVar ++ "))",
      "print(\"\\nConfusion Matrix:\")",
      "print(confusion_matrix(" ++ yTestVar ++ ", " ++ predVar ++ "))"])

/-- `predict` emission (connected case). -/
def predictBlock (nodeId modelVar xTestVar : String) : String :=
  String.intercalate "\n"
    ["# Make Predictions",
     "step_" ++ nodeId ++ "_prediction = " ++ modelVar ++ ".predict(" ++ xTestVar ++ ")",
     "print(f\"Predictions made: \x7blen(step_" ++ nodeId ++ "_prediction)\x7d samples\")",
     "print(f\"First 10 predictions: \x7bstep_" ++ nodeId ++ "_prediction[:10]\x7d\")",
     "",
     "# ========================================",
     "# Interactive Prediction Example",
     "# ========================================",
     "# You can use the trained model to make predictions on new data:",
     "# Example:",
     "#   new_data = [[value1, value2, ...]]  # Replace with actual feature values",
     "#   prediction = " ++ modelVar ++ ".predict(new_data)",
     "#   print(f\"Prediction: \x7bprediction[0]\x7d\")",
     "#",
     "# For single-feature models (e.g., score prediction):",
     "#   input_value = 75  # Example: midterm score",
     "#   prediction = " ++ modelVar ++ ".predict([[input_value]])",
     "#   print(f\"Predicted output: \x7bprediction[0]:.2f\x7d\")"]

/-- `hyperparamTune` emission (connected case). -/
def hyperparamTuneBlock (nodeId xTrainVar yTrainVar : String) : String :=
  String.intercalate "\n"
    ["# Hyperparameter Tuning",
     "param_grid = \x7b",
     "    'n_estimators': [50, 100, 200],",
     "    'max_depth': [10, 20, 30]",
     "\x7d",
     "grid_search = GridSearchCV(RandomForestClassifier(random_state=42), param_grid, cv=5)",
     "grid_search.fit(" ++ xTrainVar ++ ", " ++ yTrainVar ++ ")",
     "step_" ++ nodeId ++ "_model = grid_search.best_estimator_",
     "print(f\"Best parameters: \x7bgrid_search.best_params_\x7d\")",
     "print(f\"Best score: \x7bgrid_search.best_score_:.4f\x7d\")"]

/-- `nodeToCode`: emission rule dispatch on the node's kind.  The browser
`localStorage` read of the `dataLoader` case is modelled by the explicit
`storage` lookup function. -/
def nodeToCode (storage : String → Option String) (node : NodeData)
    (connections : List ConnectionData) (nodeMap : List (String × NodeData))
    (varName : String) (varNameMap : Option (List (String × String))) : String :=
  if node.kind = "dataLoader" then
    let fileName := jsOrStr node.controls.fileName "data.csv"
    match storage ("csv_data_" ++ fileName) with
    | some storedData =>
      dataLoaderStoredBlock fileName (btoaUtf8 storedData) varName
    | none => dataLoaderFileBlock fileName varName
  else if node.kind = "dataSplit" then
    let ratio := jsOrRat node.controls.ratio 0.8
    let targetColumn := jsOrStr node.controls.targetColumn "target"
    let sourceVar := getSourceVarName connections varNameMap node.id "data"
    dataSplitBlock targetColumn sourceVar varName (toFixed2 (1 - ratio))
  else if node.kind = "scaler" then
    let method := jsOrStr node.controls.method "StandardScaler"
    let xTrainVar := getSourceOutputVar connections varNameMap node.id "X_train"
    match connections.find? (fun c =>
        c.target = node.id ∧ c.targetInput = "X_test") with
    | some _ =>
      let xTestVar := getSourceOutputVar connections varNameMap node.id "X_test"
      scalerBothBlock method varName xTrainVar xTestVar
    | none => scalerTrainOnlyBlock method varName xTrainVar
  else if node.kind = "featureSelection" then
    let method := jsOrStr node.controls.method "SelectKBest"
    let k := jsOrNat node.controls.k 10
    let xTrainConn := connections.find? (fun c =>
      c.target = node.id ∧ c.targetInput = "X_train")
    let yTrainConn := connections.find? (fun c =>
      c.target = node.id ∧ c.targetInput = "y_train")
    match xTrainConn, yTrainConn with
    | some xc, some yc =>
      featureSelectionBlock method k varName (sanitizeId node.id)
        ("step_" ++ sanitizeId xc.source ++ "_" ++ xc.sourceOutput)
        ("step_" ++ sanitizeId yc.source ++ "_" ++ yc.sourceOutput)
    | xc, yc =>
      missingConnWarning xc.isSome yc.isSome
        "# Please connect training data to this feature selection node"
  else if node.kind = "classifier" then
    let algorithm := jsOrStr node.controls.algorithm "RandomForest"
    let nEstimators := jsOrNat node.controls.n_estimators 100
    let xTrainConn := connections.find? (fun c =>
      c.target = node.id ∧ c.targetInput = "X_train")
    let yTrainConn := connections.find? (fun c =>
      c.target = node.id ∧ c.targetInput = "y_train")
    match xTrainConn, yTrainConn with
    | some xc, some yc =>
      classifierBlock (sanitizeId node.id)
        (classifierModelCode algorithm nEstimators) algorithm
        ("step_" ++ sanitizeId xc.source ++ "_" ++ xc.sourceOutput)
        ("step_" ++ sanitizeId yc.source ++ "_" ++ yc.sourceOutput)
    | xc, yc =>
      missingConnWarning xc.isSome yc.isSome
        "# Please connect training data to this classifier node"
  else if node.kind = "regressor" then
    let algorithm := jsOrStr node.controls.algorithm "LinearRegression"
    let xTrainConn := connections.find? (fun c =>
      c.target = node.id ∧ c.targetInput = "X_train")
    let yTrainConn := connections.find? (fun c =>
      c.target = node.id ∧ c.targetInput = "y_train")
    match xTrainConn, yTrainConn with
    | some xc, some yc =>
      regressorBlock (sanitizeId node.id) (regressorModelCode algorithm)
        algorithm
        ("step_" ++ sanitizeId xc.source ++ "_" ++ xc.sourceOutput)
        ("step_" ++ sanitizeId yc.source ++ "_" ++ yc.sourceOutput)
    | xc, yc =>
      missingConnWarning xc.isSome yc.isSome
        "# Please connect training data to this regressor node"
  else if node.kind = "neuralNet" then
    let layers := jsOrStr node.controls.layers "64,32"
    let epochs := jsOrNat node.controls.epochs 50
    let xTrainConn := connections.find? (fun c =>
      c.target = node.id ∧ c.targetInput = "X_train")
    let yTrainConn := connections.find? (fun c =>
      c.target = node.id ∧ c.targetInput = "y_train")
    match xTrainConn, yTrainConn with
    | some xc, some yc =>
      neuralNetBlock (sanitizeId node.id) layers epochs
        ("step_" ++ sanitizeId xc.source ++ "_" ++ xc.sourceOutput)
        ("step_" ++ sanitizeId yc.source ++ "_" ++ yc.sourceOutput)
    | xc, yc =>
      missingConnWarning xc.isSome yc.isSome
        "# Please connect training data to this neural network node"
  else if node.kind = "evaluate" then
    let modelConn := connections.find? (fun c =>
      c.target = node.id ∧ c.targetInput = "model")
    let xTestConn := connections.find? (fun c =>
      c.target = node.id ∧ c.targetInput = "X_test")
    let yTestConn := connections.find? (fun c =>
      c.target = node.id ∧ c.targetInput = "y_test")
    let predictionConn := connections.find? (fun c =>
      c.target = node.id ∧ c.targetInput = "prediction")
    let hasPrediction := predictionConn.isSome
    let hasModel := modelConn.isSome ∧ xTestConn.isSome
    if ¬hasPrediction ∧ ¬hasModel then
      "# WARNING: Evaluate node needs either:\n" ++
      "#   Option 1: prediction input + y_test input\n" ++
      "#   Option 2: model input + X_test input + y_test input\n" ++
      "# Please connect the required inputs"
    else
      match yTestConn with
      | none =>
        "# WARNING: y_test input is required for evaluation\n" ++
        "# Please connect y_test data to this evaluate node"
      | some yc =>
        let yTestVar := "step_" ++ sanitizeId yc.source ++ "_" ++ yc.sourceOutput
        let nodeId := sanitizeId node.id
        let isRegression : Bool :=
          match modelConn with
          | some mc =>
            match getAL nodeMap mc.source with
            | some msrc => msrc.kind = "regressor"
            | none => false
          | none => false
        match predictionConn with
        | some pc =>
          let predVar := "step_" ++ sanitizeId pc.source ++ "_" ++ pc.sourceOutput
          if isRegression then
            evaluateRegressionMetrics nodeId yTestVar predVar
              "# Evaluate Regression Model (using pre-computed predictions)" []
          else
            evaluateClassificationMetrics nodeId yTestVar predVar
              "# Evaluate Classification Model (using pre-computed predictions)" []
        | none =>
          let modelVar := "step_" ++ sanitizeId (modelConn.map (·.source)).get! ++ "_model"
          let xTestVar := "step_" ++
            sanitizeId (xTestConn.map (·.source)).get! ++ "_" ++
            (xTestConn.map (·.sourceOutput)).get!
          let inferLine := "y_pred = " ++ modelVar ++ ".predict(" ++ xTestVar ++ ")"
          if isRegression then
            evaluateRegressionMetrics nodeId yTestVar "y_pred"
              "# Evaluate Regression Model" [inferLine]
          else
            evaluateClassificationMetrics nodeId yTestVar "y_pred"
              "# Evaluate Classification Model" [inferLine]
  else if node.kind = "predict" then
    let modelConn := connections.find? (fun c =>
      c.target = node.id ∧ c.targetInput = "model")
    let xTestConn := connections.find? (fun c =>
      c.target = node.id ∧ c.targetInput = "X_test")
    match modelConn, xTestConn with
    | some mc, some xc =>
      predictBlock (sanitizeId node.id)
        ("step_" ++ sanitizeId mc.source ++ "_model")
        ("step_" ++ sanitizeId xc.source ++ "_" ++ xc.sourceOutput)
    | mc, xc =>
      "# WARNING: Missing required connections!\n" ++
      (if ¬mc.isSome then "#   - model input not connected\n" else "") ++
      (if ¬xc.isSome then "#   - X_test input not connected\n" else "") ++
      "# Please connect model and X_test data to this predict node"
  else if node.kind = "hyperparamTune" then
    let xTrainConn := connections.find? (fun c =>
      c.target = node.id ∧ c.targetInput = "X_train")
    let yTrainConn := connections.find? (fun c =>
      c.target = node.id ∧ c.targetInput = "y_train")
    match xTrainConn, yTrainConn with
    | some xc, some yc =>
      hyperparamTuneBlock (sanitizeId node.id)
        ("step_" ++ sanitizeId xc.source ++ "_" ++ xc.sourceOutput)
        ("step_" ++ sanitizeId yc.source ++ "_" ++ yc.sourceOutput)
    | xc, yc =>
      missingConnWarning xc.isSome yc.isSome
        "# Please connect training data to this hyperparameter tuning node"
  else "# Unknown node type: " ++ node.kind

/-! ### `generateImports` and `generatePythonCode` -/

/-- `Set.add` on the insertion-ordered import set. -/
def addImport (l : List String) (s : String) : List String :=
  if l.contains s then l else l ++ [s]

/-- The import statements contributed by one node kind. -/
def importsForKind (kind : String) : List String :=
  if kind = "dataSplit" then
    ["from sklearn.model_selection import train_test_split"]
  else if kind = "scaler" then
    ["from sklearn.preprocessing import StandardScaler, MinMaxScaler, RobustScaler, MaxAbsScaler"]
  else if kind = "featureSelection" then
    ["from sklearn.feature_selection import SelectKBest, f_classif"]
  else if kind = "classifier" then
    ["from sklearn.ensemble import RandomForestClassifier, GradientBoostingClassifier",
     "from sklearn.linear_model import LogisticRegression",
     "from sklearn.svm import SVC",
     "from sklearn.tree import DecisionTreeClassifier",
     "from sklearn.neighbors import KNeighborsClassifier"]
  else if kind = "regressor" then
    ["from sklearn.linear_model import LinearRegression, Ridge, Lasso",
     "from sklearn.ensemble import RandomForestRegressor, GradientBoostingRegressor",
     "from sklearn.svm import SVR"]
  else if kind = "neuralNet" then
    ["from sklearn.neural_network import MLPClassifier"]
  else if kind = "evaluate" then
    ["from sklearn.metrics import accuracy_score, classification_report, confusion_matrix",
     "from sklearn.metrics import mean_absolute_error, mean_squared_error, r2_score"]
  else if kind = "hyperparamTune" then
    ["from sklearn.model_selection import GridSearchCV"]
  else []

/-- `generateImports`: pandas and numpy always, `io`/`base64` when a
`dataLoader` is present, then the per-kind imports of every node, first
occurrence order, de-duplicated, joined by newlines. -/
def generateImports (nodes : List NodeData) : String :=
  let imports := addImport (addImport [] "import pandas as pd") "import numpy as np"
  let imports :=
    if nodes.any (fun n => n.kind = "dataLoader") then
      addImport (addImport imports "import io") "import base64"
    else imports
  let imports := nodes.foldl (fun acc n =>
    (importsForKind n.kind).foldl addImport acc) imports
  String.intercalate "\n" imports

/-- The node kinds handled by the compiler (`mlNodes` filter of
`generatePythonCode`). -/
def mlKindList : List String :=
  ["dataLoader", "dataSplit", "scaler", "featureSelection",
   "classifier", "regressor", "neuralNet", "evaluate",
   "predict", "hyperparamTune"]

/-- `generatePythonCode`: guard checks, Gate-mode validation, topological
scheduling, variable naming, per-node emission and final assembly.  Thrown
`PipelineValidationError`s become `Except.error`. -/
def generatePythonCode (storage : String → Option String) (graph : GraphData) :
    Except String String := do
  if graph.nodes.length = 0 then
    throw "파이프라인에 노드가 없습니다."
  let mlNodes := graph.nodes.filter (fun n => n.kind ∈ mlKindList)
  if mlNodes.length = 0 then
    throw "파이프라인에 ML 노드가 없습니다."
  validatePipelineStructure mlNodes graph.connections
  let sortedNodes := topologicalSort mlNodes graph.connections
  let nodeMap := mlNodes.foldl (fun m n => setAL m n.id n) []
  let varNameMap := assignVarNames sortedNodes
  let imports := generateImports mlNodes
  let codeBlocks := sortedNodes.map (fun node =>
    let varName := jsOrStr (getAL varNameMap node.id) "data"
    nodeToCode storage node graph.connections nodeMap varName (some varNameMap))
  pure (imports ++
    "\n\n# ========================================\n# ML Pipeline Auto-Generated Code\n# ========================================\n\n" ++
    String.intercalate "\n\n" codeBlocks ++
    "\n\n# ========================================\n# Pipeline Complete!\n# ========================================\n")

/-! ### Exporters: `generateJupyterNotebook` and `generatePythonScript` -/

/-- JSON values, as produced for the notebook document. -/
inductive Json where
  | null : Json
  | num : Nat → Json
  | str : String → Json
  | arr : List Json → Json
  | obj : List (String × Json) → Json
deriving Repr

/-- `JSON.stringify` string escaping. -/
def escapeJsonChar (c : Char) : String :=
  if c = '"' then "\\\""
  else if c = '\\' then "\\\\"
  else if c = '\n' then "\\n"
  else if c = '\r' then "\\r"
  else if c = '\t' then "\\t"
  else if c.toNat = 8 then "\\b"
  else if c.toNat = 12 then "\\f"
  else if c.toNat < 32 then
    "\\u00" ++ String.mk [(Nat.digitChar (c.toNat / 16)), (Nat.digitChar (c.toNat % 16))]
  else String.singleton c

/-- `JSON.stringify` of a string value. -/
def stringifyStr (s : String) : String :=
  "\"" ++ String.join (s.toList.map escapeJsonChar) ++ "\""

/-- The indentation used by `JSON.stringify(x, null, 2)` at nesting depth
`d`. -/
def jsonIndent (d : Nat) : String := String.mk (List.replicate (2 * d) ' ')

/-- `JSON.stringify(x, null, 2)`: two-space pretty printing. -/
def stringifyJson (d : Nat) : Json → String
  | .null => "null"
  | .num n => toString n
  | .str s => stringifyStr s
  | .arr xs =>
    if xs.isEmpty then "[]"
    else
      "[\n" ++
      String.intercalate ",\n"
        (xs.attach.map (fun y =>
          jsonIndent (d + 1) ++ stringifyJson (d + 1) y.1)) ++
      "\n" ++ jsonIndent d ++ "]"
  | .obj ps =>
    if ps.isEmpty then "{}"
    else
      "\x7b\n" ++
      String.intercalate ",\n"
        (ps.attach.map (fun q =>
          jsonIndent (d + 1) ++ stringifyStr q.1.1 ++ ": " ++
            stringifyJson (d + 1) q.1.2)) ++
      "\n" ++ jsonIndent d ++ "\x7d"
termination_by j => sizeOf j
decreasing_by
  · have h := List.sizeOf_lt_of_mem y.2
    simp only [Json.arr.sizeOf_spec]
    omega
  · have h := List.sizeOf_lt_of_mem q.2
    have h2 : sizeOf q.1.2 < sizeOf q.1 := by
      obtain ⟨⟨a, b⟩, hq⟩ := q
      simp only
      simp
    simp only [Json.obj.sizeOf_spec]
    omega

/-- The notebook JSON document built from the generated Python code, the
pipeline name and the generation timestamp (the `new Date().toLocaleString`
value, modelled as the explicit `now` argument). -/
def notebookJson (pythonCode pipelineName now : String) : String :=
  let sections := pythonCode.splitOn "\n\n"
  let markdownCell : Json := .obj
    [("cell_type", .str "markdown"),
     ("metadata", .obj []),
     ("source", .arr
       [.str ("# " ++ pipelineName ++ "\n"),
        .str "\n",
        .str "This notebook was auto-generated from a visual ML pipeline builder.\n",
        .str "\n",
        .str ("Generated on: " ++ now ++ "\n")])]
  let codeCells := sections.map (fun sec => Json.obj
    [("cell_type", .str "code"),
     ("execution_count", .null),
     ("metadata", .obj []),
     ("outputs", .arr []),
     ("source", .arr ((sec.splitOn "\n").map (fun line => .str (line ++ "\n"))))])
  let notebook : Json := .obj
    [("cells", .arr (markdownCell :: codeCells)),
     ("metadata", .obj
       [("kernelspec", .obj
         [("display_name", .str "Python 3"),
          ("language", .str "python"),
          ("name", .str "python3")]),
        ("language_info", .obj
         [("name", .str "python"),
          ("version", .str "3.8.0")])]),
     ("nbformat", .num 4),
     ("nbformat_minor", .num 4)]
  stringifyJson 0 notebook

/-- `generateJupyterNotebook`: generate the Python code once, then format it
as a notebook document. -/
def generateJupyterNotebook (storage : String → Option String)
    (now : String) (graph : GraphData) (pipelineName : String := "ML Pipeline") :
    Except String String := do
  let pythonCode ← generatePythonCode storage graph
  pure (notebookJson pythonCode pipelineName now)

/-- The flat-script header. -/
def scriptHeader (pipelineName now : String) : String :=
  "\"\"\"\n" ++ pipelineName ++
  "\n\nAuto-generated ML Pipeline Script\nGenerated on: " ++ now ++
  "\n\nThis script was created from a visual ML pipeline builder.\n\"\"\"\n\n"

/-- `generatePythonScript`: generate the Python code once, then prepend the
header. -/
def generatePythonScript (storage : String → Option String)
    (now : String) (graph : GraphData) (pipelineName : String := "ML Pipeline") :
    Except String String := do
  let pythonCode ← generatePythonCode storage graph
  pure (scriptHeader pipelineName now ++ pythonCode)

/-! ### Generic helpers for the claim statements -/

/-- Whether an `Except` computation succeeded (no `PipelineValidationError`
was thrown). -/
def exceptOk {ε α : Type} : Except ε α → Bool
  | .ok _ => true
  | .error _ => false

/-- Test data: a loader, a splitter and a classifier wired into the standard
linear pipeline; used by several witnesses. -/
def wNodes : List NodeData :=
  [{ id := "n1", label := "Data Loader", kind := "dataLoader" },
   { id := "n2", label := "Split", kind := "dataSplit" },
   { id := "n3", label := "Clf", kind := "classifier" }]

/-- Connections of the `wNodes` pipeline. -/
def wConns : List ConnectionData :=
  [{ id := "c1", source := "n1", target := "n2", sourceOutput := "data",
     targetInput := "data" },
   { id := "c2", source := "n2", target := "n3", sourceOutput := "X_train",
     targetInput := "X_train" },
   { id := "c3", source := "n2", target := "n3", sourceOutput := "y_train",
     targetInput := "y_train" }]

/-! ### Claim C10: falsy dataSplit parameters behave like absent ones -/

/-- C10: for every dataSplit node, a falsy parameter value is
indistinguishable from an absent one: a ratio control value of 0 (or a
missing one) is replaced by the default 0.8, so the emitted
train_test_split uses test_size=0.20 rather than 1.00, and an empty-string
targetColumn is replaced by the default target column name. -/
theorem C10_dataSplit_falsy_defaults
    (storage : String → Option String) (node : NodeData)
    (connections : List ConnectionData) (nodeMap : List (String × NodeData))
    (varName : String) (varNameMap : Option (List (String × String)))
    (hkind : node.kind = "dataSplit")
    (hr : node.controls.ratio = some 0 ∨ node.controls.ratio = none)
    (ht : node.controls.targetColumn = some "" ∨
          node.controls.targetColumn = none) :
    nodeToCode storage node connections nodeMap varName varNameMap =
      dataSplitBlock "target"
        (getSourceVarName connections varNameMap node.id "data")
        varName "0.20" ∧
    toFixed2 (1 - 0) = "1.00" := by
  have h1 : jsOrRat node.controls.ratio 0.8 = 0.8 := by
    rcases hr with h | h <;> simp [h, jsOrRat]
  have h2 : jsOrStr node.controls.targetColumn "target" = "target" := by
    rcases ht with h | h <;> simp [h, jsOrStr]
  have h3 : toFixed2 (1 - 0.8) = "0.20" := by
    have e : |(1:Rat) - 0.8| * 100 + 1/2 = 41/2 := by
      rw [abs_of_nonneg (by norm_num : (0:Rat) ≤ 1 - 0.8)]
      norm_num
    have h : (⌊|(1:Rat) - 0.8| * 100 + 1/2⌋ : Int) = 20 := by
      rw [e, Int.floor_eq_iff]
      norm_num
    have hneg : ¬((1:Rat) - 0.8 < 0) := by norm_num
    simp only [toFixed2, h, hneg, if_false]
    decide
  constructor
  · simp only [nodeToCode, hkind]
    rw [if_neg (by decide)]
    rw [h1, h2, h3]
    simp
  · have e : |(1:Rat) - 0| * 100 + 1/2 = 201/2 := by
      rw [abs_of_nonneg (by norm_num : (0:Rat) ≤ 1 - 0)]
      norm_num
    have h : (⌊|(1:Rat) - 0| * 100 + 1/2⌋ : Int) = 100 := by
      rw [e, Int.floor_eq_iff]
      norm_num
    have hneg : ¬((1:Rat) - 0 < 0) := by norm_num
    simp only [toFixed2, h, hneg, if_false]
    decide

/-- Witness for C10 at a concrete dataSplit node with ratio 0 and empty
target column. -/
theorem C10_witness :
    nodeToCode (fun _ => none)
      { id := "s1", label := "Split", kind := "dataSplit",
        controls := { ratio := some 0, targetColumn := some "" } }
      [] [] "split" none =
      dataSplitBlock "target" (getSourceVarName [] none "s1" "data")
        "split" "0.20" ∧
    toFixed2 (1 - 0) = "1.00" :=
  C10_dataSplit_falsy_defaults (fun _ => none) _ [] [] "split" none rfl
    (Or.inl rfl) (Or.inl rfl)

/-! ### Claim C9: exporters are pure formatting over the generated code -/

/-- C9: the notebook and flat-script exporters depend on the graph only
through the generated code string (plus the pipeline name and the generation
timestamp): they factor as pure formatting over `generatePythonCode`'s
result, so two graphs with equal generated code export identically, and no
validation or scheduling is re-run beyond the single code-generation step. -/
theorem C9_exporters_pure_formatting
    (storage : String → Option String) (now : String)
    (g1 g2 : GraphData) (name : String)
    (h : generatePythonCode storage g1 = generatePythonCode storage g2) :
    generateJupyterNotebook storage now g1 name =
      generateJupyterNotebook storage now g2 name ∧
    generatePythonScript storage now g1 name =
      generatePythonScript storage now g2 name ∧
    generateJupyterNotebook storage now g1 name =
      (generatePythonCode storage g1).map
        (fun code => notebookJson code name now) ∧
    generatePythonScript storage now g1 name =
      (generatePythonCode storage g1).map
        (fun code => scriptHeader name now ++ code) := by
  refine ⟨?_, ?_, ?_, ?_⟩
  · simp only [generateJupyterNotebook, h]
  · simp only [generatePythonScript, h]
  · simp only [generateJupyterNotebook]
    cases generatePythonCode storage g1 <;> rfl
  · simp only [generatePythonScript]
    cases generatePythonCode storage g1 <;> rfl

/-- Witness for C9 at a concrete graph (both graphs equal). -/
theorem C9_witness :
    generateJupyterNotebook (fun _ => none) "now"
        { nodes := wNodes, connections := wConns } "P" =
      generateJupyterNotebook (fun _ => none) "now"
        { nodes := wNodes, connections := wConns } "P" ∧
    generatePythonScript (fun _ => none) "now"
        { nodes := wNodes, connections := wConns } "P" =
      generatePythonScript (fun _ => none) "now"
        { nodes := wNodes, connections := wConns } "P" ∧
    generateJupyterNotebook (fun _ => none) "now"
        { nodes := wNodes, connections := wConns } "P" =
      (generatePythonCode (fun _ => none)
          { nodes := wNodes, connections := wConns }).map
        (fun code => notebookJson code "P" "now") ∧
    generatePythonScript (fun _ => none) "now"
        { nodes := wNodes, connections := wConns } "P" =
      (generatePythonCode (fun _ => none)
          { nodes := wNodes, connections := wConns }).map
        (fun code => scriptHeader "P" "now" ++ code) :=
  C9_exporters_pure_formatting (fun _ => none) "now" _ _ "P" rfl

/-! ### Claim C3: silent placeholder for an unconnected declared input -/

/-- C3 evidence: a scaler node whose declared `X_train` input has no incoming
connection (only `X_test` is connected) is emitted as a normal scaling block
in which the unconnected input silently falls back to the guessed variable
name `data`; the block is not an unmet-dependency warning.  This exhibits the
silent-default behavior that the specification (§4.5 step 2, §9) requires to
be replaced by an explicit notice, so the code contradicts the claim. -/
theorem C3_silent_placeholder_on_unconnected_input :
    getSourceOutputVar
      [{ id := "e1", source := "d", target := "sc", sourceOutput := "data",
         targetInput := "X_test" }]
      (some [("d", "data"), ("sc", "scaler")]) "sc" "X_train" = "data" ∧
    nodeToCode (fun _ => none)
      { id := "sc", label := "Scaler", kind := "scaler" }
      [{ id := "e1", source := "d", target := "sc", sourceOutput := "data",
         targetInput := "X_test" }]
      [("d", { id := "d", label := "Loader", kind := "dataLoader" }),
       ("sc", { id := "sc", label := "Scaler", kind := "scaler" })]
      "scaler" (some [("d", "data"), ("sc", "scaler")]) =
      scalerBothBlock "StandardScaler" "scaler" "data" "data_data" ∧
    (("# WARNING".toList).isPrefixOf
      (scalerBothBlock "StandardScaler" "scaler" "data" "data_data").toList)
      = false ∧
    exceptOk (generatePythonCode (fun _ => none)
      { nodes :=
          [{ id := "d", label := "Loader", kind := "dataLoader" },
           { id := "sc", label := "Scaler", kind := "scaler" }],
        connections :=
          [{ id := "e1", source := "d", target := "sc", sourceOutput := "data",
             targetInput := "X_test" }] }) = true := by
  refine ⟨rfl, rfl, by decide, rfl⟩

/-! ### Claim C6: evaluator metric selection -/

/-- C6 counterexample: an evaluator fed a precomputed prediction produced by
a regression trainer (and a label input), with no `model` connection, emits
the classification metric block, not the regression one: the upstream
producer of the connected prediction is never inspected, only the `model`
input's producer is. -/
theorem C6_counterexample :
    (let conns : List ConnectionData :=
      [{ id := "p1", source := "r", target := "e", sourceOutput := "model",
         targetInput := "prediction" },
       { id := "p2", source := "s", target := "e", sourceOutput := "y_test",
         targetInput := "y_test" }]
     let nodeMap : List (String × NodeData) :=
      [("r", { id := "r", label := "Reg", kind := "regressor" }),
       ("e", { id := "e", label := "Eval", kind := "evaluate" }),
       ("s", { id := "s", label := "Split", kind := "dataSplit" })]
     ((conns.find? (fun c => c.target = "e" ∧ c.targetInput = "prediction")).map
        (·.source) = some "r") ∧
     ((getAL nodeMap "r").map (·.kind) = some "regressor") ∧
     nodeToCode (fun _ => none)
       { id := "e", label := "Eval", kind := "evaluate" }
       conns nodeMap "eval" (some [])
       = evaluateClassificationMetrics "e" "step_s_y_test" "step_r_model"
           "# Evaluate Classification Model (using pre-computed predictions)"
           []) ∧
    evaluateClassificationMetrics "e" "step_s_y_test" "step_r_model"
        "# Evaluate Classification Model (using pre-computed predictions)" [] ≠
      evaluateRegressionMetrics "e" "step_s_y_test" "step_r_model"
        "# Evaluate Regression Model (using pre-computed predictions)" [] := by
  refine ⟨⟨rfl, rfl, by decide⟩, by decide⟩

/-! ### Claim C1: cyclic graphs and Gate-mode validation -/

/-- C1 counterexample: a graph whose two scaler nodes form a 2-cycle (plus a
loader) passes Gate-mode validation (`validatePipelineStructure` returns
`ok`), and `generatePythonCode` succeeds: no StructuralError is reported for
the cycle and the Scheduler/Code Generator do run. -/
theorem C1_counterexample :
    validatePipelineStructure
      [{ id := "d", label := "Loader", kind := "dataLoader" },
       { id := "a", label := "ScalerA", kind := "scaler" },
       { id := "b", label := "ScalerB", kind := "scaler" }]
      [{ id := "c1", source := "a", target := "b", sourceOutput := "X_train",
         targetInput := "X_train" },
       { id := "c2", source := "b", target := "a", sourceOutput := "X_train",
         targetInput := "X_train" }] = .ok () ∧
    exceptOk (generatePythonCode (fun _ => none)
      { nodes :=
          [{ id := "d", label := "Loader", kind := "dataLoader" },
           { id := "a", label := "ScalerA", kind := "scaler" },
           { id := "b", label := "ScalerB", kind := "scaler" }],
        connections :=
          [{ id := "c1", source := "a", target := "b",
             sourceOutput := "X_train", targetInput := "X_train" },
           { id := "c2", source := "b", target := "a",
             sourceOutput := "X_train", targetInput := "X_train" }] }) =
      true := by
  exact ⟨rfl, rfl⟩

/-- C1 amended: Gate-mode validation (the validation inside
`generatePythonCode`) has no cycle check, so a cyclic graph that satisfies
the entry/orphan/required-input checks passes validation; the Scheduler then
runs and silently omits every node on the cycle from its output (here only
the loader is scheduled), and the Code Generator produces a script from that
truncated schedule. -/
theorem C1_amended_no_cycle_check :
    (topologicalSort
      [{ id := "d", label := "Loader", kind := "dataLoader" },
       { id := "a", label := "ScalerA", kind := "scaler" },
       { id := "b", label := "ScalerB", kind := "scaler" }]
      [{ id := "c1", source := "a", target := "b", sourceOutput := "X_train",
         targetInput := "X_train" },
       { id := "c2", source := "b", target := "a", sourceOutput := "X_train",
         targetInput := "X_train" }]).map (·.id) = ["d"] ∧
    generatePythonCode (fun _ => none)
      { nodes :=
          [{ id := "d", label := "Loader", kind := "dataLoader" },
           { id := "a", label := "ScalerA", kind := "scaler" },
           { id := "b", label := "ScalerB", kind := "scaler" }],
        connections :=
          [{ id := "c1", source := "a", target := "b",
             sourceOutput := "X_train", targetInput := "X_train" },
           { id := "c2", source := "b", target := "a",
             sourceOutput := "X_train", targetInput := "X_train" }] } =
      .ok (generateImports
             [{ id := "d", label := "Loader", kind := "dataLoader" },
              { id := "a", label := "ScalerA", kind := "scaler" },
              { id := "b", label := "ScalerB", kind := "scaler" }] ++
           "\n\n# ========================================\n# ML Pipeline Auto-Generated Code\n# ========================================\n\n" ++
           dataLoaderFileBlock "data.csv" "data" ++
           "\n\n# ========================================\n# Pipeline Complete!\n# ========================================\n") := by
  exact ⟨rfl, rfl⟩

/-! ### Claim C8: variable-name uniqueness -/

/-- C8 counterexample: a classifier and a regressor in one graph are both
assigned the variable name of the shared base `model` with per-kind counter
0, so the assigned names are not pairwise distinct. -/
theorem C8_counterexample :
    assignVarNames
      [{ id := "c", label := "C", kind := "classifier" },
       { id := "r", label := "R", kind := "regressor" }] =
      [("c", "model"), ("r", "model")] ∧
    ({ id := "c", label := "C", kind := "classifier" } : NodeData).id ≠
      ({ id := "r", label := "R", kind := "regressor" } : NodeData).id := by
  exact ⟨rfl, by decide⟩

/-- C6 amended: the evaluator's metric set is selected solely from the kind
of the node feeding its `model` input, in both branches of the evaluator.
With a label connected, the emitted block in every metric-emitting case is:
in the prediction-based branch (a prediction connection present), the
classification block when the model connection is absent, when its source is
not in the node map, or when its source's kind is not `regressor`, and the
regression block exactly when a model connection exists whose source node
has kind `regressor`; in the model-based branch (no prediction connection,
model and `X_test` connected), the same selection with an inference line
prepended — so regression metrics are emitted iff the model input's source
kind is `regressor`, and the kind of the node that produced the prediction
is never consulted. -/
theorem C6_amended_model_input_selects_metrics
    (storage : String → Option String) (node : NodeData)
    (connections : List ConnectionData) (nodeMap : List (String × NodeData))
    (varName : String) (varNameMap : Option (List (String × String)))
    (yc : ConnectionData)
    (hkind : node.kind = "evaluate")
    (hyc : connections.find? (fun c =>
      c.target = node.id ∧ c.targetInput = "y_test") = some yc) :
    (∀ pc, connections.find? (fun c =>
        c.target = node.id ∧ c.targetInput = "prediction") = some pc →
      (connections.find? (fun c =>
          c.target = node.id ∧ c.targetInput = "model") = none →
        nodeToCode storage node connections nodeMap varName varNameMap =
          evaluateClassificationMetrics (sanitizeId node.id)
            ("step_" ++ sanitizeId yc.source ++ "_" ++ yc.sourceOutput)
            ("step_" ++ sanitizeId pc.source ++ "_" ++ pc.sourceOutput)
            "# Evaluate Classification Model (using pre-computed predictions)"
            []) ∧
      (∀ mc, connections.find? (fun c =>
          c.target = node.id ∧ c.targetInput = "model") = some mc →
        (getAL nodeMap mc.source = none →
          nodeToCode storage node connections nodeMap varName varNameMap =
            evaluateClassificationMetrics (sanitizeId node.id)
              ("step_" ++ sanitizeId yc.source ++ "_" ++ yc.sourceOutput)
              ("step_" ++ sanitizeId pc.source ++ "_" ++ pc.sourceOutput)
              "# Evaluate Classification Model (using pre-computed predictions)"
              []) ∧
        (∀ msrc, getAL nodeMap mc.source = some msrc →
          (msrc.kind = "regressor" →
            nodeToCode storage node connections nodeMap varName varNameMap =
              evaluateRegressionMetrics (sanitizeId node.id)
                ("step_" ++ sanitizeId yc.source ++ "_" ++ yc.sourceOutput)
                ("step_" ++ sanitizeId pc.source ++ "_" ++ pc.sourceOutput)
                "# Evaluate Regression Model (using pre-computed predictions)"
                []) ∧
          (¬(msrc.kind = "regressor") →
            nodeToCode storage node connections nodeMap varName varNameMap =
              evaluateClassificationMetrics (sanitizeId node.id)
                ("step_" ++ sanitizeId yc.source ++ "_" ++ yc.sourceOutput)
                ("step_" ++ sanitizeId pc.source ++ "_" ++ pc.sourceOutput)
                "# Evaluate Classification Model (using pre-computed predictions)"
                [])))) ∧
    (connections.find? (fun c =>
        c.target = node.id ∧ c.targetInput = "prediction") = none →
      ∀ mc xc, connections.find? (fun c =>
          c.target = node.id ∧ c.targetInput = "model") = some mc →
        connections.find? (fun c =>
          c.target = node.id ∧ c.targetInput = "X_test") = some xc →
        (getAL nodeMap mc.source = none →
          nodeToCode storage node connections nodeMap varName varNameMap =
            evaluateClassificationMetrics (sanitizeId node.id)
              ("step_" ++ sanitizeId yc.source ++ "_" ++ yc.sourceOutput)
              "y_pred" "# Evaluate Classification Model"
              ["y_pred = " ++ ("step_" ++ sanitizeId mc.source ++ "_model") ++
                ".predict(" ++ ("step_" ++ sanitizeId xc.source ++ "_" ++
                  xc.sourceOutput) ++ ")"]) ∧
        (∀ msrc, getAL nodeMap mc.source = some msrc →
          (msrc.kind = "regressor" →
            nodeToCode storage node connections nodeMap varName varNameMap =
              evaluateRegressionMetrics (sanitizeId node.id)
                ("step_" ++ sanitizeId yc.source ++ "_" ++ yc.sourceOutput)
                "y_pred" "# Evaluate Regression Model"
                ["y_pred = " ++ ("step_" ++ sanitizeId mc.source ++ "_model")
                  ++ ".predict(" ++ ("step_" ++ sanitizeId xc.source ++ "_" ++
                    xc.sourceOutput) ++ ")"]) ∧
          (¬(msrc.kind = "regressor") →
            nodeToCode storage node connections nodeMap varName varNameMap =
              evaluateClassificationMetrics (sanitizeId node.id)
                ("step_" ++ sanitizeId yc.source ++ "_" ++ yc.sourceOutput)
                "y_pred" "# Evaluate Classification Model"
                ["y_pred = " ++ ("step_" ++ sanitizeId mc.source ++ "_model")
                  ++ ".predict(" ++ ("step_" ++ sanitizeId xc.source ++ "_" ++
                    xc.sourceOutput) ++ ")"]))) := by
  constructor
  · intro pc hpc
    refine ⟨?_, ?_⟩
    · intro hmc
      unfold nodeToCode
      rw [hkind, if_neg (by decide), if_neg (by decide), if_neg (by decide),
          if_neg (by decide), if_neg (by decide), if_neg (by decide),
          if_neg (by decide), if_pos rfl, hpc, hyc, hmc]
      simp
    · intro mc hmc
      refine ⟨?_, ?_⟩
      · intro hsrc
        unfold nodeToCode
        rw [hkind, if_neg (by decide), if_neg (by decide), if_neg (by decide),
            if_neg (by decide), if_neg (by decide), if_neg (by decide),
            if_neg (by decide), if_pos rfl, hpc, hyc, hmc]
        simp [hsrc]
      · intro msrc hsrc
        refine ⟨?_, ?_⟩
        · intro hreg
          unfold nodeToCode
          rw [hkind, if_neg (by decide), if_neg (by decide),
              if_neg (by decide), if_neg (by decide), if_neg (by decide),
              if_neg (by decide), if_neg (by decide), if_pos rfl, hpc, hyc,
              hmc]
          simp [hsrc, hreg]
        · intro hreg
          unfold nodeToCode
          rw [hkind, if_neg (by decide), if_neg (by decide),
              if_neg (by decide), if_neg (by decide), if_neg (by decide),
              if_neg (by decide), if_neg (by decide), if_pos rfl, hpc, hyc,
              hmc]
          simp [hsrc, hreg]
  · intro hpc mc xc hmc hxc
    refine ⟨?_, ?_⟩
    · intro hsrc
      unfold nodeToCode
      rw [hkind, if_neg (by decide), if_neg (by decide), if_neg (by decide),
          if_neg (by decide), if_neg (by decide), if_neg (by decide),
          if_neg (by decide), if_pos rfl, hpc, hyc, hmc, hxc]
      simp [hsrc]
    · intro msrc hsrc
      refine ⟨?_, ?_⟩
      · intro hreg
        unfold nodeToCode
        rw [hkind, if_neg (by decide), if_neg (by decide), if_neg (by decide),
            if_neg (by decide), if_neg (by decide), if_neg (by decide),
            if_neg (by decide), if_pos rfl, hpc, hyc, hmc, hxc]
        simp [hsrc, hreg]
      · intro hreg
        unfold nodeToCode
        rw [hkind, if_neg (by decide), if_neg (by decide), if_neg (by decide),
            if_neg (by decide), if_neg (by decide), if_neg (by decide),
            if_neg (by decide), if_pos rfl, hpc, hyc, hmc, hxc]
        simp [hsrc, hreg]

/-- Witness for C6's amended claim at concrete evaluator nodes: a
prediction-fed evaluator whose prediction comes from a regressor but with no
model connection emits the classification block, and a model-based evaluator
whose model input comes from a regressor emits the regression block with the
inference line. -/
theorem C6_amended_witness :
    (nodeToCode (fun _ => none)
      { id := "e", label := "Eval", kind := "evaluate" }
      [{ id := "p1", source := "r", target := "e", sourceOutput := "model",
         targetInput := "prediction" },
       { id := "p2", source := "s", target := "e", sourceOutput := "y_test",
         targetInput := "y_test" }]
      [] "eval" (some []) =
      evaluateClassificationMetrics "e" "step_s_y_test" "step_r_model"
        "# Evaluate Classification Model (using pre-computed predictions)"
        []) ∧
    (nodeToCode (fun _ => none)
      { id := "e", label := "Eval", kind := "evaluate" }
      [{ id := "m1", source := "r", target := "e", sourceOutput := "model",
         targetInput := "model" },
       { id := "m2", source := "s", target := "e", sourceOutput := "X_test",
         targetInput := "X_test" },
       { id := "m3", source := "s", target := "e", sourceOutput := "y_test",
         targetInput := "y_test" }]
      [("r", { id := "r", label := "Reg", kind := "regressor" })]
      "eval" (some []) =
      evaluateRegressionMetrics "e" "step_s_y_test" "y_pred"
        "# Evaluate Regression Model"
        ["y_pred = step_r_model.predict(step_s_X_test)"]) := by
  constructor
  · exact ((C6_amended_model_input_selects_metrics (fun _ => none)
      { id := "e", label := "Eval", kind := "evaluate" }
      [{ id := "p1", source := "r", target := "e", sourceOutput := "model",
         targetInput := "prediction" },
       { id := "p2", source := "s", target := "e", sourceOutput := "y_test",
         targetInput := "y_test" }]
      [] "eval" (some [])
      { id := "p2", source := "s", target := "e", sourceOutput := "y_test",
        targetInput := "y_test" }
      rfl rfl).1
      { id := "p1", source := "r", target := "e", sourceOutput := "model",
        targetInput := "prediction" }
      rfl).1 rfl
  · exact (((C6_amended_model_input_selects_metrics (fun _ => none)
      { id := "e", label := "Eval", kind := "evaluate" }
      [{ id := "m1", source := "r", target := "e", sourceOutput := "model",
         targetInput := "model" },
       { id := "m2", source := "s", target := "e", sourceOutput := "X_test",
         targetInput := "X_test" },
       { id := "m3", source := "s", target := "e", sourceOutput := "y_test",
         targetInput := "y_test" }]
      [("r", { id := "r", label := "Reg", kind := "regressor" })]
      "eval" (some [])
      { id := "m3", source := "s", target := "e", sourceOutput := "y_test",
        targetInput := "y_test" }
      rfl rfl).2 rfl
      { id := "m1", source := "r", target := "e", sourceOutput := "model",
        targetInput := "model" }
      { id := "m2", source := "s", target := "e", sourceOutput := "X_test",
        targetInput := "X_test" }
      rfl rfl).2
      { id := "r", label := "Reg", kind := "regressor" } rfl).1 rfl

/-! ### Claim C5: fixed-order validation and the orphan criterion -/

/-- The single descriptive violation produced by the required-input check for
one node, if any (spec-level description of check 3). -/
def requiredInputMessage (connections : List ConnectionData)
    (n : NodeData) : Option String :=
  if n.kind = "dataSplit" ∧
      (connections.filter (fun c => c.target = n.id)).length = 0 then
    some (n.label ++ ": DataSplit 노드는 데이터 입력이 필요합니다.")
  else if n.kind ∈ modelKinds ∧
      ¬((connections.filter (fun c => c.target = n.id)).any
          (fun c => c.targetInput = "X_train") ∧
        (connections.filter (fun c => c.target = n.id)).any
          (fun c => c.targetInput = "y_train")) then
    some (n.label ++ ": 모델 노드는 X_train과 y_train이 모두 필요합니다.")
  else none

/-- Spec-level description of Gate-mode validation, written after the amended
claim: (1) entry-kind presence; (2) no orphan, where a node is an orphan
exactly when it is a non-entry node incident to no connection at all
(neither as source nor as target); (3) required-input checks node by node;
the first failing check aborts with a single descriptive violation. -/
def validateSpec (nodes : List NodeData)
    (connections : List ConnectionData) : Except String Unit :=
  if ¬nodes.any (fun n => n.kind = "dataLoader") then
    .error "파이프라인에 DataLoader 노드가 필요합니다."
  else
    let orphans := nodes.filter (fun n =>
      n.kind ≠ "dataLoader" ∧
      ¬connections.any (fun c => c.source = n.id ∨ c.target = n.id))
    if orphans.length > 0 then
      .error ("연결되지 않은 노드가 있습니다: " ++
        String.intercalate ", " (orphans.map (·.label)))
    else
      match nodes.findSome? (requiredInputMessage connections) with
      | some msg => .error msg
      | none => .ok ()

/-- Membership in the accumulated source/target id list of the orphan
check. -/
theorem mem_connectedIds (conns : List ConnectionData)
    (init : List String) (x : String) :
    x ∈ conns.foldl (fun acc c => acc ++ [c.source, c.target]) init ↔
    x ∈ init ∨ ∃ c ∈ conns, c.source = x ∨ c.target = x := by
  induction conns generalizing init with
  | nil => simp
  | cons c cs ih =>
    simp only [List.foldl_cons, ih, List.mem_append, List.mem_cons,
      List.mem_singleton, List.mem_cons]
    constructor
    · rintro (⟨h | h | h⟩ | ⟨d, hd, h⟩)
      · exact Or.inl h
      · exact Or.inr ⟨c, by simp, Or.inl h.symm⟩
      · rcases h with h | h
        · exact Or.inr ⟨c, by simp, Or.inr h.symm⟩
        · simp at h
      · exact Or.inr ⟨d, by simp [hd], h⟩
    · rintro (h | ⟨d, hd, h⟩)
      · exact Or.inl (Or.inl h)
      · rcases hd with rfl | hd
        · rcases h with h | h
          · exact Or.inl (Or.inr (Or.inl h.symm))
          · exact Or.inl (Or.inr (Or.inr (by simp [h])))
        · exact Or.inr ⟨d, hd, h⟩

/-- The per-node check of `validatePipelineStructure` agrees with the
spec-level `requiredInputMessage`. -/
theorem checkNodeInputs_eq (conns : List ConnectionData) (n : NodeData) :
    checkNodeInputs conns n =
      match requiredInputMessage conns n with
      | some m => .error m
      | none => .ok () := by
  unfold checkNodeInputs requiredInputMessage
  by_cases h1 : n.kind = "dataSplit" ∧
      (conns.filter (fun c => c.target = n.id)).length = 0
  · simp [h1]
  · rw [if_neg h1, if_neg h1]
    by_cases h2 : n.kind ∈ modelKinds
    · by_cases hx : ((conns.filter (fun c => c.target = n.id)).any
          (fun c => c.targetInput = "X_train")) = true <;>
      by_cases hy : ((conns.filter (fun c => c.target = n.id)).any
          (fun c => c.targetInput = "y_train")) = true <;>
      simp [h2, hx, hy]
    · simp [h2]

/-- The `forM` of the per-node checks returns the first violation. -/
theorem forM_checkNodeInputs (conns : List ConnectionData) :
    ∀ nodes : List NodeData,
      nodes.forM (checkNodeInputs conns) =
        match nodes.findSome? (requiredInputMessage conns) with
        | some msg => .error msg
        | none => .ok () := by
  intro nodes
  induction nodes with
  | nil => rfl
  | cons n ns ih =>
    rw [show (n :: ns).forM (checkNodeInputs conns) =
          checkNodeInputs conns n >>= (fun _ => ns.forM (checkNodeInputs conns))
        from rfl,
      checkNodeInputs_eq, List.findSome?_cons]
    cases requiredInputMessage conns n with
    | some m => rfl
    | none => simpa using ih

/-- The orphan check's accumulated id list contains an id exactly when some
connection touches it (as source or as target). -/
theorem contains_connectedIds (conns : List ConnectionData) (x : String) :
    (conns.foldl (fun acc c => acc ++ [c.source, c.target]) []).contains x =
    conns.any (fun c => c.source = x ∨ c.target = x) := by
  rw [Bool.eq_iff_iff]
  have h := mem_connectedIds conns [] x
  simp only [List.mem_nil_iff, false_or] at h
  rw [List.elem_iff, h]
  simp [List.any_eq_true]

/-- C5 amended: Gate-mode validation runs its checks in the fixed order
entry-kind presence, then orphan detection, then required-input checks,
aborting with a single descriptive violation at the first failing check; a
node is reported as an orphan exactly when it is a non-entry node incident
to no connection at all (neither as source nor as target), so a non-entry
node with only outgoing connections passes the orphan check even though it
has no incoming edge. -/
theorem C5_amended_fixed_order_validation (nodes : List NodeData)
    (conns : List ConnectionData) :
    validatePipelineStructure nodes conns = validateSpec nodes conns := by
  unfold validatePipelineStructure validateSpec
  simp only [contains_connectedIds]
  rw [forM_checkNodeInputs]
  by_cases hdl : nodes.any (fun n => n.kind = "dataLoader") = true
  · simp only [hdl]
    simp
    split
    · rfl
    · rfl
  · simp only [hdl]
    simp
    rfl

/-- C5 counterexample: a non-entry node with no incoming edge but one
outgoing edge is not reported as an orphan — validation succeeds — although
the claim's orphan criterion ("non-entry node with no incoming edge") would
report it. -/
theorem C5_counterexample :
    validatePipelineStructure
      [{ id := "d", label := "Loader", kind := "dataLoader" },
       { id := "s", label := "Scaler", kind := "scaler" }]
      [{ id := "c1", source := "s", target := "d", sourceOutput := "X_train",
         targetInput := "data" }] = .ok () ∧
    ([({ id := "c1", source := "s", target := "d", sourceOutput := "X_train",
         targetInput := "data" } : ConnectionData)].any
      (fun c => c.target = "s")) = false ∧
    ({ id := "s", label := "Scaler", kind := "scaler" } : NodeData).kind ≠
      "dataLoader" := by
  exact ⟨rfl, rfl, by decide⟩

/-! ### Claim C4: Gate-mode failure aborts generation; ConnectivityError -/

/-- A trainer-like node is missing one of its required training inputs. -/
def missingTrainInput (conns : List ConnectionData) (n : NodeData) : Prop :=
  ¬((conns.filter (fun c => c.target = n.id)).any
      (fun c => c.targetInput = "X_train")) = true ∨
  ¬((conns.filter (fun c => c.target = n.id)).any
      (fun c => c.targetInput = "y_train")) = true

instance (conns : List ConnectionData) (n : NodeData) :
    Decidable (missingTrainInput conns n) := by
  unfold missingTrainInput
  infer_instance

/-- `findSome?` finds a value when some member maps to one. -/
theorem findSome?_isSome_of_mem {α β : Type} (f : α → Option β)
    (l : List α) (x : α) (v : β) (hx : x ∈ l) (h : f x = some v) :
    ∃ w, l.findSome? f = some w := by
  induction l with
  | nil => cases hx
  | cons a as ih =>
    rw [List.findSome?_cons]
    cases ha : f a with
    | some w => exact ⟨w, rfl⟩
    | none =>
      rcases List.mem_cons.mp hx with rfl | hx2
      · rw [ha] at h; cases h
      · exact ih hx2

/-- `findSome?` returns the unique violator's value. -/
theorem findSome?_eq_some_of_unique {α β : Type} (f : α → Option β)
    (l : List α) (n : α) (v : β) (hmem : n ∈ l) (hn : f n = some v)
    (hothers : ∀ x ∈ l, f x = none ∨ x = n) :
    l.findSome? f = some v := by
  induction l with
  | nil => cases hmem
  | cons a as ih =>
    rw [List.findSome?_cons]
    rcases List.mem_cons.mp hmem with rfl | hmem
    · rw [hn]
    · rcases hothers a (by simp) with ha | rfl
      · rw [ha]
        exact ih hmem (fun x hx => hothers x (by simp [hx]))
      · rw [hn]

/-- A model-kind node with a missing training input yields the model-node
violation message. -/
theorem requiredInputMessage_model (conns : List ConnectionData)
    (n : NodeData) (hk : n.kind ∈ modelKinds)
    (hmiss : missingTrainInput conns n) :
    requiredInputMessage conns n =
      some (n.label ++ ": 모델 노드는 X_train과 y_train이 모두 필요합니다.") := by
  have hnds : ¬(n.kind = "dataSplit") := by
    simp only [modelKinds, List.mem_cons, List.not_mem_nil, or_false] at hk
    rcases hk with h | h | h <;> simp [h]
  unfold requiredInputMessage
  rw [if_neg (by tauto)]
  rw [if_pos]
  refine ⟨hk, ?_⟩
  rcases hmiss with h | h <;> tauto

/-- Gate-mode validation fails (with some `PipelineValidationError`) on any
node list containing a model-kind node with a missing training input. -/
theorem validate_fails_on_model_missing (nodes : List NodeData)
    (conns : List ConnectionData) (n : NodeData) (hmem : n ∈ nodes)
    (hk : n.kind ∈ modelKinds) (hmiss : missingTrainInput conns n) :
    ∃ e, validatePipelineStructure nodes conns = .error e := by
  unfold validatePipelineStructure
  by_cases hdl : nodes.any (fun n => n.kind = "dataLoader") = true
  · simp only [hdl]
    simp
    split
    · exact ⟨_, rfl⟩
    · rw [forM_checkNodeInputs]
      obtain ⟨w, hw⟩ := findSome?_isSome_of_mem (requiredInputMessage conns)
        nodes n _ hmem (requiredInputMessage_model conns n hk hmiss)
      rw [hw]
      exact ⟨w, rfl⟩
  · simp only [hdl]
    simp
    exact ⟨_, rfl⟩

/-- If Gate-mode validation fails on the filtered ML nodes, code generation
returns an error (never a script). -/
theorem generate_not_ok_of_validate_error
    (storage : String → Option String) (graph : GraphData) (e : String)
    (h : validatePipelineStructure
        (graph.nodes.filter (fun n => n.kind ∈ mlKindList))
        graph.connections = .error e) :
    exceptOk (generatePythonCode storage graph) = false := by
  unfold generatePythonCode
  by_cases h0 : graph.nodes.length = 0
  · simp only [h0]
    simp
    rfl
  · by_cases h1 :
      (graph.nodes.filter (fun n => n.kind ∈ mlKindList)).length = 0
    · rw [if_neg h0]
      simp only [h1]
      simp
      rfl
    · rw [if_neg h0, if_neg h1]
      simp
      rw [h]
      rfl

/-- Under entry presence, no orphans, and `n` being the only node with a
required-input violation, validation fails with exactly the model-node
message naming `n`'s label (and both required inputs). -/
theorem validate_error_msg_of_unique (nodes : List NodeData)
    (conns : List ConnectionData) (n : NodeData) (hmem : n ∈ nodes)
    (hk : n.kind ∈ modelKinds) (hmiss : missingTrainInput conns n)
    (hdl : nodes.any (fun m => m.kind = "dataLoader") = true)
    (horph : (nodes.filter (fun m =>
      m.kind ≠ "dataLoader" ∧
      ¬(conns.foldl (fun acc c => acc ++ [c.source, c.target]) []).contains
        m.id)).length = 0)
    (huniq : ∀ m ∈ nodes, requiredInputMessage conns m = none ∨ m = n) :
    validatePipelineStructure nodes conns =
      .error (n.label ++ ": 모델 노드는 X_train과 y_train이 모두 필요합니다.") := by
  unfold validatePipelineStructure
  dsimp only
  rw [horph, forM_checkNodeInputs,
    findSome?_eq_some_of_unique (requiredInputMessage conns) nodes n _ hmem
      (requiredInputMessage_model conns n hk hmiss) huniq]
  simp [hdl]

/-- Every trainer-like kind is one of the compiler's ML kinds. -/
theorem modelKinds_subset_mlKindList :
    ∀ k ∈ modelKinds, k ∈ mlKindList := by decide

/-- C4: whenever Gate-mode validation fails, `generatePythonCode` throws
before any code block is produced, so no partial script is ever returned
(part 1); in particular, for every classifier/regressor/neuralNet node with
no incoming connection on `X_train` or `y_train`, validation fails and
nothing is generated (part 2); and when the graph otherwise passes the
earlier checks and that node is the violating one, the raised
`PipelineValidationError` is exactly the message naming the offending node's
label together with the required `X_train`/`y_train` inputs (part 3). -/
theorem C4_gate_failure_aborts_generation :
    (∀ (storage : String → Option String) (graph : GraphData) (e : String),
      validatePipelineStructure
        (graph.nodes.filter (fun n => n.kind ∈ mlKindList))
        graph.connections = .error e →
      exceptOk (generatePythonCode storage graph) = false) ∧
    (∀ (storage : String → Option String) (graph : GraphData) (n : NodeData),
      n ∈ graph.nodes → n.kind ∈ modelKinds →
      missingTrainInput graph.connections n →
      exceptOk (generatePythonCode storage graph) = false) ∧
    (∀ (storage : String → Option String) (graph : GraphData) (n : NodeData),
      n ∈ graph.nodes → n.kind ∈ modelKinds →
      missingTrainInput graph.connections n →
      ((graph.nodes.filter (fun m => m.kind ∈ mlKindList)).any
        (fun m => m.kind = "dataLoader")) = true →
      ((graph.nodes.filter (fun m => m.kind ∈ mlKindList)).filter (fun m =>
        m.kind ≠ "dataLoader" ∧
        ¬(graph.connections.foldl
            (fun acc c => acc ++ [c.source, c.target]) []).contains
          m.id)).length = 0 →
      (∀ m ∈ graph.nodes.filter (fun m => m.kind ∈ mlKindList),
        requiredInputMessage graph.connections m = none ∨ m = n) →
      generatePythonCode storage graph =
        .error (n.label ++ ": 모델 노드는 X_train과 y_train이 모두 필요합니다.")) := by
  have hml : ∀ (graph : GraphData) (n : NodeData), n ∈ graph.nodes →
      n.kind ∈ modelKinds →
      n ∈ graph.nodes.filter (fun m => m.kind ∈ mlKindList) := by
    intro graph n hmem hk
    rw [List.mem_filter]
    exact ⟨hmem, by simpa using modelKinds_subset_mlKindList n.kind hk⟩
  refine ⟨?_, ?_, ?_⟩
  · intro storage graph e h
    exact generate_not_ok_of_validate_error storage graph e h
  · intro storage graph n hmem hk hmiss
    obtain ⟨e, he⟩ := validate_fails_on_model_missing
      (graph.nodes.filter (fun m => m.kind ∈ mlKindList)) graph.connections n
      (hml graph n hmem hk) hk hmiss
    exact generate_not_ok_of_validate_error storage graph e he
  · intro storage graph n hmem hk hmiss hdl horph huniq
    have hval := validate_error_msg_of_unique
      (graph.nodes.filter (fun m => m.kind ∈ mlKindList)) graph.connections n
      (hml graph n hmem hk) hk hmiss hdl horph huniq
    have h0 : ¬(graph.nodes.length = 0) := by
      intro hlen
      exact List.ne_nil_of_mem hmem (List.length_eq_zero.mp hlen)
    have h1 : ¬((graph.nodes.filter (fun m => m.kind ∈ mlKindList)).length
        = 0) := by
      intro hlen
      exact List.ne_nil_of_mem (hml graph n hmem hk)
        (List.length_eq_zero.mp hlen)
    unfold generatePythonCode
    rw [if_neg h0, if_neg h1]
    simp
    rw [hval]
    rfl

/-- Witness for C4 at a concrete pipeline whose classifier lacks its
`y_train` input. -/
theorem C4_witness :
    generatePythonCode (fun _ => none)
      { nodes :=
          [{ id := "n1", label := "Data Loader", kind := "dataLoader" },
           { id := "n2", label := "Split", kind := "dataSplit" },
           { id := "n3", label := "Clf", kind := "classifier" }],
        connections :=
          [{ id := "c1", source := "n1", target := "n2",
             sourceOutput := "data", targetInput := "data" },
           { id := "c2", source := "n2", target := "n3",
             sourceOutput := "X_train", targetInput := "X_train" }] } =
      .error ("Clf" ++ ": 모델 노드는 X_train과 y_train이 모두 필요합니다.") := by
  exact C4_gate_failure_aborts_generation.2.2 (fun _ => none)
    { nodes :=
        [{ id := "n1", label := "Data Loader", kind := "dataLoader" },
         { id := "n2", label := "Split", kind := "dataSplit" },
         { id := "n3", label := "Clf", kind := "classifier" }],
      connections :=
        [{ id := "c1", source := "n1", target := "n2",
           sourceOutput := "data", targetInput := "data" },
         { id := "c2", source := "n2", target := "n3",
           sourceOutput := "X_train", targetInput := "X_train" }] }
    { id := "n3", label := "Clf", kind := "classifier" }
    (by decide) (by decide) (by decide) (by decide) (by decide) (by decide)

/-! ### Substring occurrence counting (for the transform-block claims) -/

/-- Number of positions at which `p` occurs as a contiguous substring of
`l` (for nonempty `p`, one count per starting position). -/
def countOccs (p : List Char) : List Char → Nat
  | [] => if p = [] then 1 else 0
  | c :: rest => (if p <+: (c :: rest) then 1 else 0) + countOccs p rest

/-- Occurrence count on strings. -/
def strCount (p s : String) : Nat := countOccs p.toList s.toList

/-- String append distributes over `toList`. -/
theorem toList_append (a b : String) :
    (a ++ b).toList = a.toList ++ b.toList := rfl

/-- Splitting an occurrence count at a crossing-free boundary. -/
theorem countOccs_append (p : List Char) (hp : p ≠ []) :
    ∀ (a b : List Char),
      (∀ k, k < p.length → 0 < k → ¬(p.take k <:+ a ∧ p.drop k <+: b)) →
      countOccs p (a ++ b) = countOccs p a + countOccs p b := by
  intro a
  induction a with
  | nil =>
    intro b _
    simp [countOccs, hp]
  | cons c a' ih =>
    intro b hcross
    have hpre : (p <+: (c :: a') ++ b) ↔ (p <+: c :: a') := by
      constructor
      · intro h
        by_cases hle : p.length ≤ (c :: a').length
        · have h1 : p = ((c :: a') ++ b).take p.length :=
            List.prefix_iff_eq_take.mp h
          rw [List.take_append_of_le_length hle] at h1
          exact List.prefix_iff_eq_take.mpr h1
        · exfalso
          push_neg at hle
          obtain ⟨r, hr⟩ := h
          have htake : (c :: a') = p.take (c :: a').length := by
            have h2 := congrArg (List.take (c :: a').length) hr
            rw [List.take_append_of_le_length (Nat.le_of_lt hle),
              List.take_left] at h2
            exact h2.symm
          have hdrop : p.drop (c :: a').length <+: b := by
            have h3 := congrArg (List.drop (c :: a').length) hr
            rw [List.drop_append_of_le_length (Nat.le_of_lt hle),
              List.drop_left] at h3
            exact ⟨r, h3⟩
          exact hcross (c :: a').length hle (by simp)
            ⟨by rw [← htake], hdrop⟩
      · intro h
        exact h.trans (List.prefix_append _ _)
    have hstep : countOccs p ((c :: a') ++ b) =
        (if p <+: (c :: a') ++ b then 1 else 0) + countOccs p (a' ++ b) := rfl
    have hcross' : ∀ k, k < p.length → 0 < k →
        ¬(p.take k <:+ a' ∧ p.drop k <+: b) := by
      intro k hk h0 ⟨hs, hd⟩
      exact hcross k hk h0 ⟨hs.trans (List.suffix_cons c a'), hd⟩
    rw [hstep, ih b hcross']
    simp only [hpre]
    have hsplit : countOccs p (c :: a') =
        (if p <+: (c :: a') then 1 else 0) + countOccs p a' := rfl
    omega

/-- A pattern headed by a character absent from `l` never occurs in `l`. -/
theorem countOccs_eq_zero_of_head (p : List Char) (c : Char)
    (hc : p.head? = some c) (l : List Char) (hmem : c ∉ l) :
    countOccs p l = 0 := by
  induction l with
  | nil =>
    have : p ≠ [] := by rintro rfl; cases hc
    simp [countOccs, this]
  | cons d rest ih =>
    have hne : ¬(p <+: d :: rest) := by
      intro hpre
      cases p with
      | nil => cases hc
      | cons p0 ptl =>
        obtain ⟨t, ht⟩ := hpre
        injection hc with hc0
        injection ht with h1 _
        exact hmem (by simp [← h1, ← hc0])
    have hmem' : c ∉ rest := fun h => hmem (by simp [h])
    simp [countOccs, hne, ih hmem']

/-- Peel a leading variable segment whose head character keeps the pattern
out: no occurrence can start in or straddle out of the segment. -/
theorem countOccs_append_var (p : List Char) (c : Char)
    (hc : p.head? = some c) (s b : List Char) (hs : c ∉ s) :
    countOccs p (s ++ b) = countOccs p b := by
  have hp : p ≠ [] := by rintro rfl; cases hc
  rw [countOccs_append p hp s b ?_, countOccs_eq_zero_of_head p c hc s hs,
    Nat.zero_add]
  intro k hk h0 ⟨hsuf, _⟩
  cases p with
  | nil => cases hc
  | cons p0 ptl =>
    injection hc with hc0
    have : p0 ∈ s := hsuf.subset (by
      have : (p0 :: ptl).take k = p0 :: ptl.take (k - 1) := by
        cases k with
        | zero => omega
        | succ k' => simp
      simp [this])
    rw [hc0] at this
    exact hs this

/-- No nonempty tail of the pattern is a prefix of `b`. -/
def rightSafe (p b : List Char) : Prop :=
  ∀ k, k < p.length → 0 < k → ¬(p.drop k <+: b)

instance (p b : List Char) : Decidable (rightSafe p b) := by
  unfold rightSafe
  infer_instance

/-- No nonempty head of the pattern is a suffix of `a`. -/
def leftSafe (p a : List Char) : Prop :=
  ∀ k, k < p.length → 0 < k → ¬(p.take k <:+ a)

instance (p a : List Char) : Decidable (leftSafe p a) := by
  unfold leftSafe
  infer_instance

/-- Splitting at a boundary whose right side blocks every pattern tail. -/
theorem countOccs_append_rightSafe (p : List Char) (hp : p ≠ [])
    (a b : List Char) (h : rightSafe p b) :
    countOccs p (a ++ b) = countOccs p a + countOccs p b :=
  countOccs_append p hp a b (fun k hk h0 hx => h k hk h0 hx.2)

/-- Splitting at a boundary whose left side blocks every pattern head. -/
theorem countOccs_append_leftSafe (p : List Char) (hp : p ≠ [])
    (a b : List Char) (h : leftSafe p a) :
    countOccs p (a ++ b) = countOccs p a + countOccs p b :=
  countOccs_append p hp a b (fun k hk h0 hx => h k hk h0 hx.1)

/-- `rightSafe` transfers along a literal-led right side when every pattern
tail already mismatches within the literal. -/
theorem rightSafe_append_lit (p lit more : List Char)
    (h : ∀ k, k < p.length → 0 < k →
      ¬((p.drop k).take lit.length <+: lit)) :
    rightSafe p (lit ++ more) := by
  intro k hk h0 hpre
  apply h k hk h0
  by_cases hle : (p.drop k).length ≤ lit.length
  · have h1 : p.drop k = (lit ++ more).take (p.drop k).length :=
      List.prefix_iff_eq_take.mp hpre
    rw [List.take_append_of_le_length hle] at h1
    have h2 : p.drop k <+: lit := List.prefix_iff_eq_take.mpr h1
    rw [List.take_of_length_le (by omega)]
    exact h2
  · push_neg at hle
    obtain ⟨t, ht⟩ := hpre
    have h2 : lit = (p.drop k).take lit.length := by
      have h3 := congrArg (List.take lit.length) ht
      rw [List.take_append_of_le_length (Nat.le_of_lt hle),
        List.take_left] at h3
      exact h3.symm
    rw [← h2]

/-! ### Claim C7: transform-kind emission (fit once; no leakage) -/

/-- C7, primary-only part: a scaler node with only its `X_train` input
connected emits the fit-and-apply-once block: the block equals the
train-only template, `fit_transform(` occurs exactly once in it, and no
statement line (the non-comment lines) mentions `X_test` at all.  The
hypotheses on the interpolated fragments (variable name, method name and
resolved producer variable) rule out pathological names containing the
reserved characters; all are discharged by the concrete witness. -/
theorem C7_scaler_train_only
    (storage : String → Option String) (node : NodeData)
    (connections : List ConnectionData) (nodeMap : List (String × NodeData))
    (varName : String) (varNameMap : Option (List (String × String)))
    (method x : String)
    (hkind : node.kind = "scaler")
    (hm : method = jsOrStr node.controls.method "StandardScaler")
    (hx : x = getSourceOutputVar connections varNameMap node.id "X_train")
    (hfind : connections.find? (fun c =>
      c.target = node.id ∧ c.targetInput = "X_test") = none)
    (hXv : 'X' ∉ varName.toList) (hXm : 'X' ∉ method.toList)
    (hfv : 'f' ∉ varName.toList) (hfm : 'f' ∉ method.toList)
    (hfx : 'f' ∉ x.toList)
    (hXx : strCount "X_test" x = 0) :
    nodeToCode storage node connections nodeMap varName varNameMap =
      scalerTrainOnlyBlock method varName x ∧
    strCount "fit_transform(" (scalerTrainOnlyBlock method varName x) = 1 ∧
    ∀ line ∈
      [varName ++ " = " ++ method ++ "()",
       varName ++ "_X_train = " ++ varName ++ ".fit_transform(" ++ x ++ ")",
       "print(\"Features scaled using " ++ method ++ "\")",
       "print(f\"Scaled train shape: \x7b" ++ varName ++
         "_X_train.shape\x7d\")"],
      strCount "X_test" line = 0 := by
  refine ⟨?_, ?_, ?_⟩
  · unfold nodeToCode
    rw [hkind, if_neg (by decide), if_neg (by decide), if_pos rfl, hfind]
    rw [hm, hx]
  · unfold scalerTrainOnlyBlock
    simp only [strCount, toList_append, List.append_assoc]
    rw [countOccs_append_leftSafe _ (by decide) _ _ (by decide),
      countOccs_append_var _ 'f' (by decide) _ _ hfv,
      countOccs_append_leftSafe _ (by decide) _ _ (by decide),
      countOccs_append_var _ 'f' (by decide) _ _ hfm,
      countOccs_append_leftSafe _ (by decide) _ _ (by decide),
      countOccs_append_var _ 'f' (by decide) _ _ hfv,
      countOccs_append_leftSafe _ (by decide) _ _ (by decide),
      countOccs_append_var _ 'f' (by decide) _ _ hfv,
      countOccs_append_leftSafe _ (by decide) _ _ (by decide),
      countOccs_append_var _ 'f' (by decide) _ _ hfx,
      countOccs_append_leftSafe _ (by decide) _ _ (by decide),
      countOccs_append_leftSafe _ (by decide) _ _ (by decide),
      countOccs_append_var _ 'f' (by decide) _ _ hfm,
      countOccs_append_leftSafe _ (by decide) _ _ (by decide),
      countOccs_append_leftSafe _ (by decide) _ _ (by decide),
      countOccs_append_var _ 'f' (by decide) _ _ hfv]
    decide
  · intro line hline
    simp only [List.mem_cons, List.not_mem_nil, or_false] at hline
    rcases hline with rfl | rfl | rfl | rfl
    · simp only [strCount, toList_append, List.append_assoc]
      rw [countOccs_append_var _ 'X' (by decide) _ _ hXv,
        countOccs_append_leftSafe _ (by decide) _ _ (by decide),
        countOccs_append_var _ 'X' (by decide) _ _ hXm]
      decide
    · simp only [strCount, toList_append, List.append_assoc]
      rw [countOccs_append_var _ 'X' (by decide) _ _ hXv,
        countOccs_append_leftSafe _ (by decide) _ _ (by decide),
        countOccs_append_var _ 'X' (by decide) _ _ hXv,
        countOccs_append_leftSafe _ (by decide) _ _ (by decide),
        countOccs_append_rightSafe _ (by decide) _ _ (by decide)]
      have hXx' : countOccs "X_test".toList x.toList = 0 := hXx
      rw [hXx']
      decide
    · simp only [strCount, toList_append, List.append_assoc]
      rw [countOccs_append_leftSafe _ (by decide) _ _ (by decide),
        countOccs_append_var _ 'X' (by decide) _ _ hXm]
      decide
    · simp only [strCount, toList_append, List.append_assoc]
      rw [countOccs_append_leftSafe _ (by decide) _ _ (by decide),
        countOccs_append_var _ 'X' (by decide) _ _ hXv]
      decide

/-- C7, secondary-connected part: a scaler node with both inputs connected
fits only on the primary input and applies (never fits) on the secondary:
the block equals the both-inputs template, in which `fit_transform(` occurs
exactly once (on the primary input) and `.fit` occurs exactly once overall,
so the secondary `transform(` call cannot be a fit. -/
theorem C7_scaler_both_inputs
    (storage : String → Option String) (node : NodeData)
    (connections : List ConnectionData) (nodeMap : List (String × NodeData))
    (varName : String) (varNameMap : Option (List (String × String)))
    (method xtr xte : String) (xc : ConnectionData)
    (hkind : node.kind = "scaler")
    (hm : method = jsOrStr node.controls.method "StandardScaler")
    (hxtr : xtr = getSourceOutputVar connections varNameMap node.id "X_train")
    (hxte : xte = getSourceOutputVar connections varNameMap node.id "X_test")
    (hfind : connections.find? (fun c =>
      c.target = node.id ∧ c.targetInput = "X_test") = some xc)
    (hdv : '.' ∉ varName.toList) (hdm : '.' ∉ method.toList)
    (hdtr : '.' ∉ xtr.toList) (hdte : '.' ∉ xte.toList)
    (hfv : 'f' ∉ varName.toList) (hfm : 'f' ∉ method.toList)
    (hftr : 'f' ∉ xtr.toList) (hfte : 'f' ∉ xte.toList) :
    nodeToCode storage node connections nodeMap varName varNameMap =
      scalerBothBlock method varName xtr xte ∧
    strCount "fit_transform(" (scalerBothBlock method varName xtr xte) = 1 ∧
    strCount ".fit" (scalerBothBlock method varName xtr xte) = 1 := by
  refine ⟨?_, ?_, ?_⟩
  · unfold nodeToCode
    rw [hkind, if_neg (by decide), if_neg (by decide), if_pos rfl, hfind]
    rw [hm, hxtr, hxte]
  · unfold scalerBothBlock
    simp only [strCount, toList_append, List.append_assoc]
    rw [countOccs_append_leftSafe _ (by decide) _ _ (by decide),
      countOccs_append_var _ 'f' (by decide) _ _ hfv,
      countOccs_append_leftSafe _ (by decide) _ _ (by decide),
      countOccs_append_var _ 'f' (by decide) _ _ hfm,
      countOccs_append_leftSafe _ (by decide) _ _ (by decide),
      countOccs_append_var _ 'f' (by decide) _ _ hfv,
      countOccs_append_leftSafe _ (by decide) _ _ (by decide),
      countOccs_append_var _ 'f' (by decide) _ _ hfv,
      countOccs_append_leftSafe _ (by decide) _ _ (by decide),
      countOccs_append_var _ 'f' (by decide) _ _ hftr,
      countOccs_append_leftSafe _ (by decide) _ _ (by decide),
      countOccs_append_var _ 'f' (by decide) _ _ hfv,
      countOccs_append_leftSafe _ (by decide) _ _ (by decide),
      countOccs_append_var _ 'f' (by decide) _ _ hfv,
      countOccs_append_leftSafe _ (by decide) _ _ (by decide),
      countOccs_append_var _ 'f' (by decide) _ _ hfte,
      countOccs_append_leftSafe _ (by decide) _ _ (by decide),
      countOccs_append_leftSafe _ (by decide) _ _ (by decide),
      countOccs_append_var _ 'f' (by decide) _ _ hfm,
      countOccs_append_leftSafe _ (by decide) _ _ (by decide),
      countOccs_append_leftSafe _ (by decide) _ _ (by decide),
      countOccs_append_var _ 'f' (by decide) _ _ hfv,
      countOccs_append_leftSafe _ (by decide) _ _ (by decide),
      countOccs_append_leftSafe _ (by decide) _ _ (by decide),
      countOccs_append_var _ 'f' (by decide) _ _ hfv]
    decide
  · unfold scalerBothBlock
    simp only [strCount, toList_append, List.append_assoc]
    rw [countOccs_append_leftSafe _ (by decide) _ _ (by decide),
      countOccs_append_var _ '.' (by decide) _ _ hdv,
      countOccs_append_leftSafe _ (by decide) _ _ (by decide),
      countOccs_append_var _ '.' (by decide) _ _ hdm,
      countOccs_append_leftSafe _ (by decide) _ _ (by decide),
      countOccs_append_var _ '.' (by decide) _ _ hdv,
      countOccs_append_leftSafe _ (by decide) _ _ (by decide),
      countOccs_append_var _ '.' (by decide) _ _ hdv,
      countOccs_append_leftSafe _ (by decide) _ _ (by decide),
      countOccs_append_var _ '.' (by decide) _ _ hdtr,
      countOccs_append_leftSafe _ (by decide) _ _ (by decide),
      countOccs_append_var _ '.' (by decide) _ _ hdv,
      countOccs_append_leftSafe _ (by decide) _ _ (by decide),
      countOccs_append_var _ '.' (by decide) _ _ hdv,
      countOccs_append_leftSafe _ (by decide) _ _ (by decide),
      countOccs_append_var _ '.' (by decide) _ _ hdte,
      countOccs_append_leftSafe _ (by decide) _ _ (by decide),
      countOccs_append_leftSafe _ (by decide) _ _ (by decide),
      countOccs_append_var _ '.' (by decide) _ _ hdm,
      countOccs_append_leftSafe _ (by decide) _ _ (by decide),
      countOccs_append_leftSafe _ (by decide) _ _ (by decide),
      countOccs_append_var _ '.' (by decide) _ _ hdv,
      countOccs_append_leftSafe _ (by decide) _ _ (by decide),
      countOccs_append_leftSafe _ (by decide) _ _ (by decide),
      countOccs_append_var _ '.' (by decide) _ _ hdv]
    decide

/-- C7: for a scaler (transform) node with only its primary `X_train` input
connected, the emitted block fits-and-applies once (a single
`fit_transform(` on the training input) and no statement line references an
`X_test` variable; when the secondary `X_test` input is also connected, the
block fits only on the primary input (`fit_transform(` and `.fit` each occur
exactly once, on the primary) and applies `transform` — never fit — to the
secondary input, as the both-inputs template shows. -/
theorem C7_transform_kind_blocks :
    (∀ (storage : String → Option String) (node : NodeData)
       (connections : List ConnectionData)
       (nodeMap : List (String × NodeData)) (varName : String)
       (varNameMap : Option (List (String × String))) (method x : String),
      node.kind = "scaler" →
      method = jsOrStr node.controls.method "StandardScaler" →
      x = getSourceOutputVar connections varNameMap node.id "X_train" →
      connections.find? (fun c =>
        c.target = node.id ∧ c.targetInput = "X_test") = none →
      'X' ∉ varName.toList → 'X' ∉ method.toList →
      'f' ∉ varName.toList → 'f' ∉ method.toList → 'f' ∉ x.toList →
      strCount "X_test" x = 0 →
      nodeToCode storage node connections nodeMap varName varNameMap =
        scalerTrainOnlyBlock method varName x ∧
      strCount "fit_transform(" (scalerTrainOnlyBlock method varName x) = 1 ∧
      ∀ line ∈
        [varName ++ " = " ++ method ++ "()",
         varName ++ "_X_train = " ++ varName ++ ".fit_transform(" ++ x ++ ")",
         "print(\"Features scaled using " ++ method ++ "\")",
         "print(f\"Scaled train shape: \x7b" ++ varName ++
           "_X_train.shape\x7d\")"],
        strCount "X_test" line = 0) ∧
    (∀ (storage : String → Option String) (node : NodeData)
       (connections : List ConnectionData)
       (nodeMap : List (String × NodeData)) (varName : String)
       (varNameMap : Option (List (String × String)))
       (method xtr xte : String) (xc : ConnectionData),
      node.kind = "scaler" →
      method = jsOrStr node.controls.method "StandardScaler" →
      xtr = getSourceOutputVar connections varNameMap node.id "X_train" →
      xte = getSourceOutputVar connections varNameMap node.id "X_test" →
      connections.find? (fun c =>
        c.target = node.id ∧ c.targetInput = "X_test") = some xc →
      '.' ∉ varName.toList → '.' ∉ method.toList →
      '.' ∉ xtr.toList → '.' ∉ xte.toList →
      'f' ∉ varName.toList → 'f' ∉ method.toList →
      'f' ∉ xtr.toList → 'f' ∉ xte.toList →
      nodeToCode storage node connections nodeMap varName varNameMap =
        scalerBothBlock method varName xtr xte ∧
      strCount "fit_transform(" (scalerBothBlock method varName xtr xte) = 1 ∧
      strCount ".fit" (scalerBothBlock method varName xtr xte) = 1) :=
  ⟨fun storage node connections nodeMap varName varNameMap method x h1 h2 h3
      h4 h5 h6 h7 h8 h9 h10 =>
    C7_scaler_train_only storage node connections nodeMap varName varNameMap
      method x h1 h2 h3 h4 h5 h6 h7 h8 h9 h10,
   fun storage node connections nodeMap varName varNameMap method xtr xte xc
      h1 h2 h3 h4 h5 h6 h7 h8 h9 h10 h11 h12 h13 =>
    C7_scaler_both_inputs storage node connections nodeMap varName varNameMap
      method xtr xte xc h1 h2 h3 h4 h5 h6 h7 h8 h9 h10 h11 h12 h13⟩

/-- Witness for C7 at concrete scaler nodes (primary-only, and both
inputs). -/
theorem C7_witness :
    (nodeToCode (fun _ => none)
      { id := "sc", label := "Scaler", kind := "scaler" }
      [{ id := "c1", source := "sp", target := "sc",
         sourceOutput := "X_train", targetInput := "X_train" }]
      [] "scaler" (some [("sp", "split"), ("sc", "scaler")]) =
        scalerTrainOnlyBlock "StandardScaler" "scaler" "split_X_train" ∧
      strCount "fit_transform("
        (scalerTrainOnlyBlock "StandardScaler" "scaler" "split_X_train") = 1 ∧
      ∀ line ∈
        ["scaler" ++ " = " ++ "StandardScaler" ++ "()",
         "scaler" ++ "_X_train = " ++ "scaler" ++ ".fit_transform(" ++
           "split_X_train" ++ ")",
         "print(\"Features scaled using " ++ "StandardScaler" ++ "\")",
         "print(f\"Scaled train shape: \x7b" ++ "scaler" ++
           "_X_train.shape\x7d\")"],
        strCount "X_test" line = 0) ∧
    (nodeToCode (fun _ => none)
      { id := "sc", label := "Scaler", kind := "scaler" }
      [{ id := "c1", source := "sp", target := "sc",
         sourceOutput := "X_train", targetInput := "X_train" },
       { id := "c2", source := "sp", target := "sc",
         sourceOutput := "X_test", targetInput := "X_test" }]
      [] "scaler" (some [("sp", "split"), ("sc", "scaler")]) =
        scalerBothBlock "StandardScaler" "scaler" "split_X_train"
          "split_X_test" ∧
      strCount "fit_transform("
        (scalerBothBlock "StandardScaler" "scaler" "split_X_train"
          "split_X_test") = 1 ∧
      strCount ".fit"
        (scalerBothBlock "StandardScaler" "scaler" "split_X_train"
          "split_X_test") = 1) :=
  ⟨C7_transform_kind_blocks.1 (fun _ => none)
      { id := "sc", label := "Scaler", kind := "scaler" }
      [{ id := "c1", source := "sp", target := "sc",
         sourceOutput := "X_train", targetInput := "X_train" }]
      [] "scaler" (some [("sp", "split"), ("sc", "scaler")])
      "StandardScaler" "split_X_train"
      rfl rfl rfl rfl (by decide) (by decide) (by decide) (by decide)
      (by decide) (by decide),
   C7_transform_kind_blocks.2 (fun _ => none)
      { id := "sc", label := "Scaler", kind := "scaler" }
      [{ id := "c1", source := "sp", target := "sc",
         sourceOutput := "X_train", targetInput := "X_train" },
       { id := "c2", source := "sp", target := "sc",
         sourceOutput := "X_test", targetInput := "X_test" }]
      [] "scaler" (some [("sp", "split"), ("sc", "scaler")])
      "StandardScaler" "split_X_train" "split_X_test"
      { id := "c2", source := "sp", target := "sc",
        sourceOutput := "X_test", targetInput := "X_test" }
      rfl rfl rfl rfl rfl (by decide) (by decide) (by decide) (by decide)
      (by decide) (by decide) (by decide) (by decide)⟩

/-! ### Claim C8: variable-name characterization -/

/-- Mathematical form of the decimal digit list of `Nat.toDigits 10`. -/
def digitsM (n : Nat) : List Char :=
  if n < 10 then [Nat.digitChar n]
  else digitsM (n / 10) ++ [Nat.digitChar (n % 10)]
decreasing_by
  exact Nat.div_lt_self (by omega) (by omega)

/-- The accumulator of `Nat.toDigitsCore` is simply appended. -/
theorem toDigitsCore_acc (f : Nat) :
    ∀ (n : Nat) (acc : List Char),
      Nat.toDigitsCore 10 f n acc = Nat.toDigitsCore 10 f n [] ++ acc := by
  induction f with
  | zero => intro n acc; simp [Nat.toDigitsCore]
  | succ f ih =>
    intro n acc
    show (if n / 10 = 0 then _ :: acc else _) = _
    by_cases h : n / 10 = 0
    · simp [Nat.toDigitsCore, h]
    · simp only [Nat.toDigitsCore, if_neg h]
      rw [ih (n / 10) (Nat.digitChar (n % 10) :: acc),
        ih (n / 10) [Nat.digitChar (n % 10)], List.append_assoc]
      rfl

/-- Sufficient fuel makes `toDigitsCore` fuel-independent. -/
theorem toDigitsCore_fuel : ∀ (f f' n : Nat), n < f → n < f' →
    Nat.toDigitsCore 10 f n [] = Nat.toDigitsCore 10 f' n [] := by
  intro f
  induction f with
  | zero => intro f' n h; omega
  | succ f ih =>
    intro f' n hf hf'
    cases f' with
    | zero => omega
    | succ f' =>
      show (if n / 10 = 0 then _ else _) = (if n / 10 = 0 then _ else _)
      by_cases h : n / 10 = 0
      · simp [h]
      · simp only [if_neg h]
        rw [toDigitsCore_acc f, toDigitsCore_acc f',
          ih f' (n / 10) (by omega) (by omega)]

/-- `Nat.toDigits 10` agrees with the recursive decimal form. -/
theorem toDigits_eq_digitsM (n : Nat) : Nat.toDigits 10 n = digitsM n := by
  induction n using Nat.strong_induction_on with
  | _ n ih =>
    unfold Nat.toDigits
    show (if n / 10 = 0 then _ else _) = _
    by_cases h : n / 10 = 0
    · have hn : n < 10 := by omega
      rw [if_pos h]
      rw [digitsM, if_pos hn, Nat.mod_eq_of_lt hn]
    · have hn : ¬(n < 10) := by omega
      rw [if_neg h, digitsM, if_neg hn]
      rw [toDigitsCore_acc, toDigitsCore_fuel n (n / 10 + 1) (n / 10)
        (by have := Nat.div_lt_self (by omega : 0 < n) (by omega : 1 < 10);
            omega)
        (by omega)]
      rw [← Nat.toDigits, ih (n / 10) (Nat.div_lt_self (by omega) (by omega))]

/-- `digitsM` is never empty. -/
theorem digitsM_ne_nil (n : Nat) : digitsM n ≠ [] := by
  rw [digitsM]
  by_cases h : n < 10 <;> simp [h]

/-- `digitChar` is injective below 10. -/
theorem digitChar_inj : ∀ a < 10, ∀ b < 10,
    Nat.digitChar a = Nat.digitChar b → a = b := by decide

/-- Unfolding `digitsM` below 10. -/
theorem digitsM_lt (n : Nat) (h : n < 10) :
    digitsM n = [Nat.digitChar n] := by
  rw [digitsM, if_pos h]

/-- Unfolding `digitsM` from 10 up. -/
theorem digitsM_ge (n : Nat) (h : ¬n < 10) :
    digitsM n = digitsM (n / 10) ++ [Nat.digitChar (n % 10)] := by
  rw [digitsM, if_neg h]

/-- `digitsM` of a small number has length one, otherwise at least two. -/
theorem digitsM_length_ge (n : Nat) (h : ¬n < 10) :
    2 ≤ (digitsM n).length := by
  rw [digitsM_ge n h]
  cases hd : digitsM (n / 10) with
  | nil => exact absurd hd (digitsM_ne_nil (n / 10))
  | cons a l => simp

/-- `digitsM` is injective. -/
theorem digitsM_inj : ∀ (m n : Nat), digitsM m = digitsM n → m = n := by
  intro m
  induction m using Nat.strong_induction_on with
  | _ m ih =>
    intro n h
    by_cases hm : m < 10 <;> by_cases hn : n < 10
    · rw [digitsM_lt m hm, digitsM_lt n hn] at h
      exact digitChar_inj m hm n hn (by injection h)
    · exfalso
      have h2 := digitsM_length_ge n hn
      rw [← h, digitsM_lt m hm] at h2
      simp at h2
    · exfalso
      have h2 := digitsM_length_ge m hm
      rw [h, digitsM_lt n hn] at h2
      simp at h2
    · rw [digitsM_ge m hm, digitsM_ge n hn] at h
      obtain ⟨h1, h2⟩ := List.append_inj' h (by simp)
      have hdiv : m / 10 = n / 10 :=
        ih (m / 10) (Nat.div_lt_self (by omega) (by omega)) (n / 10) h1
      have hmod : m % 10 = n % 10 :=
        digitChar_inj (m % 10) (Nat.mod_lt m (by omega)) (n % 10)
          (Nat.mod_lt n (by omega)) (by injection h2)
      omega

/-- Decimal `toString` on naturals is injective. -/
theorem natToString_inj (m n : Nat) (h : toString m = toString n) :
    m = n := by
  have h2 : Nat.toDigits 10 m = Nat.toDigits 10 n := by
    have h3 : (Nat.toDigits 10 m).asString = (Nat.toDigits 10 n).asString := h
    have h4 := congrArg String.toList h3
    simpa [List.asString] using h4
  rw [toDigits_eq_digitsM, toDigits_eq_digitsM] at h2
  exact digitsM_inj m n h2

/-- `toString` of a natural is never the empty string. -/
theorem natToString_ne_empty (n : Nat) : toString n ≠ "" := by
  intro h
  have h2 := congrArg String.toList h
  rw [show (toString n).toList = Nat.toDigits 10 n from rfl,
    toDigits_eq_digitsM] at h2
  exact digitsM_ne_nil n (by simpa using h2)

/-! ### Association-list lemmas (shared by the naming and scheduling proofs) -/

/-- `getAL` after `setAL` at the same key. -/
theorem getAL_setAL_self {α : Type} (m : List (String × α)) (k : String)
    (v : α) : getAL (setAL m k v) k = some v := by
  unfold setAL
  by_cases hany : m.any (fun p => p.1 = k)
  · rw [if_pos hany]
    induction m with
    | nil => simp at hany
    | cons p ps ih =>
      by_cases hp : p.1 = k
      · simp [getAL, hp]
      · have hany' : ps.any (fun q => q.1 = k) := by
          simp only [List.any_cons] at hany
          rcases Bool.or_eq_true_iff.mp hany with h | h
          · exact absurd (by simpa using h) hp
          · exact h
        simp only [List.map_cons, if_neg hp]
        rw [show getAL ((p :: ps.map (fun q => if q.1 = k then (k, v) else q)))
            k = getAL (ps.map (fun q => if q.1 = k then (k, v) else q)) k
          from by simp [getAL, List.find?_cons, hp]]
        exact ih hany'
  · rw [if_neg hany]
    induction m with
    | nil => simp [getAL]
    | cons p ps ih =>
      have hp : ¬(p.1 = k) := by
        intro hp
        exact hany (by simp [List.any_cons, hp])
      have hany' : ¬ps.any (fun q => q.1 = k) := by
        intro h
        exact hany (by simp [List.any_cons, h])
      rw [show getAL ((p :: ps) ++ [(k, v)]) k =
          getAL (ps ++ [(k, v)]) k from by
        simp [getAL, List.find?_cons, hp]]
      exact ih hany'

/-- `getAL` ignores an in-place update at a different key. -/
theorem getAL_map_set_ne {α : Type} (ps : List (String × α))
    (k k' : String) (v : α) (h : k' ≠ k) :
    getAL (ps.map (fun q => if q.1 = k then (k, v) else q)) k' =
      getAL ps k' := by
  induction ps with
  | nil => simp [getAL]
  | cons p ps ih =>
    simp only [List.map_cons]
    by_cases hp : p.1 = k
    · rw [if_pos hp]
      have h1 : getAL ((k, v) ::
          ps.map (fun q => if q.1 = k then (k, v) else q)) k' =
          getAL (ps.map (fun q => if q.1 = k then (k, v) else q)) k' := by
        simp [getAL, List.find?_cons, Ne.symm h]
      have h2 : getAL (p :: ps) k' = getAL ps k' := by
        have hnk : ¬(p.1 = k') := by rw [hp]; exact Ne.symm h
        simp [getAL, List.find?_cons, hnk]
      rw [h1, h2]
      exact ih
    · rw [if_neg hp]
      by_cases hpk : p.1 = k'
      · simp [getAL, List.find?_cons, hpk]
      · have h1 : getAL (p ::
            ps.map (fun q => if q.1 = k then (k, v) else q)) k' =
            getAL (ps.map (fun q => if q.1 = k then (k, v) else q)) k' := by
          simp [getAL, List.find?_cons, hpk]
        have h2 : getAL (p :: ps) k' = getAL ps k' := by
          simp [getAL, List.find?_cons, hpk]
        rw [h1, h2]
        exact ih

/-- `getAL` ignores an appended binding at a different key. -/
theorem getAL_append_ne {α : Type} (ps : List (String × α))
    (k k' : String) (v : α) (h : k' ≠ k) :
    getAL (ps ++ [(k, v)]) k' = getAL ps k' := by
  induction ps with
  | nil => simp [getAL, Ne.symm h]
  | cons p ps ih =>
    by_cases hpk : p.1 = k'
    · simp [getAL, List.find?_cons, hpk]
    · have h1 : getAL (p :: (ps ++ [(k, v)])) k' =
          getAL (ps ++ [(k, v)]) k' := by
        simp [getAL, List.find?_cons, hpk]
      have h2 : getAL (p :: ps) k' = getAL ps k' := by
        simp [getAL, List.find?_cons, hpk]
      rw [List.cons_append, h1, h2]
      exact ih

/-- `getAL` after `setAL` at a different key. -/
theorem getAL_setAL_ne {α : Type} (m : List (String × α)) (k k' : String)
    (v : α) (h : k' ≠ k) : getAL (setAL m k v) k' = getAL m k' := by
  unfold setAL
  by_cases hany : m.any (fun p => p.1 = k)
  · rw [if_pos hany]
    exact getAL_map_set_ne m k k' v h
  · rw [if_neg hany]
    exact getAL_append_ne m k k' v h

/-- The short base name assigned to a kind (`kindMap` lookup, `step`
fallback). -/
def baseOf (kind : String) : String := jsOrStr (getAL kindMap kind) "step"

/-- The variable name for the `i`-th occurrence of a base name. -/
def mkName (b : String) (i : Nat) : String :=
  if i = 0 then b else b ++ toString (i + 1)

/-- Number of nodes of a given kind. -/
def countKind (nodes : List NodeData) (k : String) : Nat :=
  (nodes.filter (fun n => n.kind = k)).length

/-- The sequence of names produced by the assignment pass, threading the
per-kind counter map. -/
def varNamesAux (idx : List (String × Nat)) : List NodeData → List String
  | [] => []
  | n :: rest =>
    (getSimpleVarName n idx).1 :: varNamesAux (getSimpleVarName n idx).2 rest

/-- The names assigned to the scheduled nodes, in schedule order. -/
def varNamesList (nodes : List NodeData) : List String := varNamesAux [] nodes

/-- The default node used by positional lookups. -/
def dfltNode : NodeData := { id := "", label := "", kind := "" }

/-- The assignment pass stores exactly the id-to-name bindings, in order,
when node ids are distinct. -/
theorem assignVarNames_eq_zip :
    ∀ (nodes : List NodeData) (accM : List (String × String))
      (idx : List (String × Nat)),
      (∀ n ∈ nodes, ¬accM.any (fun p => p.1 = n.id) = true) →
      (nodes.map (·.id)).Nodup →
      (nodes.foldl (fun (st : List (String × String) × List (String × Nat))
          node =>
          let r := getSimpleVarName node st.2
          (setAL st.1 node.id r.1, r.2)) (accM, idx)).1 =
        accM ++ (nodes.map (·.id)).zip (varNamesAux idx nodes) := by
  intro nodes
  induction nodes with
  | nil => intro accM idx _ _; simp [varNamesAux]
  | cons n rest ih =>
    intro accM idx hacc hnd
    simp only [List.foldl_cons, List.map_cons, varNamesAux, List.zip_cons_cons]
    have hset : setAL accM n.id (getSimpleVarName n idx).1 =
        accM ++ [(n.id, (getSimpleVarName n idx).1)] := by
      unfold setAL
      rw [if_neg (hacc n (by simp))]
    rw [hset]
    rw [ih (accM ++ [(n.id, (getSimpleVarName n idx).1)])
      (getSimpleVarName n idx).2 ?_ ?_]
    · simp
    · intro m hm
      simp only [List.any_append, Bool.or_eq_true, not_or]
      constructor
      · exact hacc m (by simp [hm])
      · simp only [List.any_cons, List.any_nil, Bool.or_false]
        simp only [List.map_cons, List.nodup_cons] at hnd
        intro heq
        have heq2 : n.id = m.id := by simpa using heq
        exact hnd.1 (by rw [heq2]; exact List.mem_map_of_mem (·.id) hm)
    · simp only [List.map_cons, List.nodup_cons] at hnd
      exact hnd.2

/-- Positional characterization of the assigned names: base name of the
node's kind plus the count of earlier nodes of the same kind, offset by the
incoming counter map. -/
theorem varNamesAux_getD :
    ∀ (nodes : List NodeData) (idx : List (String × Nat)) (i : Nat),
      i < nodes.length →
      (varNamesAux idx nodes).getD i "" =
        mkName (baseOf ((nodes.getD i dfltNode).kind))
          (((getAL idx ((nodes.getD i dfltNode).kind)).getD 0) +
            countKind (nodes.take i) ((nodes.getD i dfltNode).kind)) := by
  intro nodes
  induction nodes with
  | nil => intro idx i h; simp at h
  | cons n rest ih =>
    intro idx i hi
    cases i with
    | zero =>
      simp only [varNamesAux, List.getD_cons_zero, List.take_zero]
      unfold getSimpleVarName mkName baseOf countKind
      simp
    | succ i' =>
      simp only [varNamesAux, List.getD_cons_succ, List.take_succ_cons]
      rw [ih (getSimpleVarName n idx).2 i' (by simpa using hi)]
      have hidx : (getSimpleVarName n idx).2 = setAL idx n.kind
          (((getAL idx n.kind).getD 0) + 1) := by
        unfold getSimpleVarName
        simp
      rw [hidx]
      set k := (rest.getD i' dfltNode).kind with hk
      by_cases hkn : k = n.kind
      · rw [hkn, getAL_setAL_self]
        have hcnt : countKind (n :: rest.take i') n.kind =
            countKind (rest.take i') n.kind + 1 := by
          unfold countKind
          simp [List.filter_cons]
        rw [hcnt]
        simp only [Option.getD_some]
        congr 1
        omega
      · rw [getAL_setAL_ne idx n.kind k _ hkn]
        have hcnt : countKind (n :: rest.take i') k =
            countKind (rest.take i') k := by
          unfold countKind
          simp [List.filter_cons, Ne.symm hkn, hkn]
        rw [hcnt]

/-- The base names that `baseOf` can produce. -/
def baseNames : List String :=
  ["data", "split", "scaler", "feature", "model", "nn", "eval", "tuner",
   "step"]

/-- Every assigned base name is one of the nine base names. -/
theorem baseOf_mem (k : String) : baseOf k ∈ baseNames := by
  unfold baseOf getAL
  cases hf : kindMap.find? (fun p => p.1 = k) with
  | none => decide
  | some pr =>
    have hmem := List.mem_of_find?_eq_some hf
    unfold kindMap at hmem
    fin_cases hmem <;> decide

/-- No base name is a strict prefix of another. -/
theorem baseNames_not_prefix : ∀ b1 ∈ baseNames, ∀ b2 ∈ baseNames,
    b1 ≠ b2 → ¬(b1.toList <+: b2.toList) := by decide

/-- `String.toList` is injective. -/
theorem stringToList_inj (s t : String) (h : s.toList = t.toList) :
    s = t := by
  cases s with
  | mk d1 =>
    cases t with
    | mk d2 =>
      have hd : d1 = d2 := by simpa [String.toList] using h
      rw [hd]

/-- The name of the `i`-th occurrence starts with the base name. -/
theorem mkName_take (b : String) (i : Nat) :
    (mkName b i).toList.take b.toList.length = b.toList := by
  unfold mkName
  by_cases hi : i = 0
  · simp [hi]
  · rw [if_neg hi, toList_append,
      List.take_append_of_le_length (by omega), List.take_length]

/-- Truncating an assigned name within the base name sees only the base. -/
theorem mkName_take_le (b : String) (i n : Nat)
    (hn : n ≤ b.toList.length) :
    (mkName b i).toList.take n = b.toList.take n := by
  have h := congrArg (List.take n) (mkName_take b i)
  rwa [List.take_take, Nat.min_eq_left hn] at h

/-- The printed decimal of a natural is nonempty. -/
theorem natToString_length_pos (n : Nat) : 0 < (toString n).length := by
  have h := digitsM_ne_nil n
  have hlen : (toString n).length = (digitsM n).length := by
    rw [show (toString n).length = (Nat.toDigits 10 n).length from rfl,
      toDigits_eq_digitsM]
  rw [hlen]
  cases hd : digitsM n with
  | nil => exact absurd hd h
  | cons a l => simp

/-- Name collisions happen exactly at equal base and equal occurrence
index. -/
theorem mkName_inj (b1 b2 : String) (hb1 : b1 ∈ baseNames)
    (hb2 : b2 ∈ baseNames) (i j : Nat) :
    mkName b1 i = mkName b2 j ↔ (b1 = b2 ∧ i = j) := by
  constructor
  · intro h
    have hlist := congrArg String.toList h
    have hb12 : b1 = b2 := by
      rcases Nat.lt_trichotomy b1.toList.length b2.toList.length with
        hlt | heq | hgt
      · exfalso
        apply baseNames_not_prefix b1 hb1 b2 hb2
          (fun he => by rw [he] at hlt; omega)
        rw [List.prefix_iff_eq_take]
        rw [← mkName_take b1 i, hlist,
          mkName_take_le b2 j b1.toList.length (Nat.le_of_lt hlt),
          List.length_take, Nat.min_eq_left (Nat.le_of_lt hlt)]
      · apply stringToList_inj
        rw [← mkName_take b1 i, hlist, heq, mkName_take b2 j]
      · exfalso
        apply baseNames_not_prefix b2 hb2 b1 hb1
          (fun he => by rw [he] at hgt; omega)
        rw [List.prefix_iff_eq_take]
        rw [← mkName_take b2 j, ← hlist,
          mkName_take_le b1 i b2.toList.length (Nat.le_of_lt hgt),
          List.length_take, Nat.min_eq_left (Nat.le_of_lt hgt)]
    refine ⟨hb12, ?_⟩
    subst hb12
    unfold mkName at h
    by_cases hi : i = 0 <;> by_cases hj : j = 0
    · omega
    · exfalso
      rw [if_pos hi, if_neg hj] at h
      have hlen := congrArg String.length h
      simp only [String.length_append] at hlen
      have := natToString_length_pos (j + 1)
      omega
    · exfalso
      rw [if_neg hi, if_pos hj] at h
      have hlen := congrArg String.length h
      simp only [String.length_append] at hlen
      have := natToString_length_pos (i + 1)
      omega
    · rw [if_neg hi, if_neg hj] at h
      have hlist2 := congrArg String.toList h
      rw [toList_append, toList_append] at hlist2
      have hd := List.append_cancel_left hlist2
      have := natToString_inj (i + 1) (j + 1) (stringToList_inj _ _ hd)
      omega
  · rintro ⟨rfl, rfl⟩
    rfl

/-- C8 amended: the assignment pass maps each scheduled node (ids distinct)
to `shortNameFor(kind)` plus a per-kind occurrence counter, and two
positions receive the same variable name exactly when their kinds share the
same short base name and they have the same per-kind occurrence index; in
particular names are distinct within a kind, while kinds sharing a base
(classifier/regressor both `model`; evaluate/predict/hyperparamTune all
`step`) collide at equal indices. -/
theorem C8_amended_name_characterization :
    (∀ nodes : List NodeData,
      (nodes.map (·.id)).Nodup →
      assignVarNames nodes =
        (nodes.map (·.id)).zip (varNamesList nodes)) ∧
    (∀ (nodes : List NodeData) (i j : Nat),
      i < nodes.length → j < nodes.length →
      ((varNamesList nodes).getD i "" = (varNamesList nodes).getD j "" ↔
        (baseOf ((nodes.getD i dfltNode).kind) =
            baseOf ((nodes.getD j dfltNode).kind) ∧
         countKind (nodes.take i) ((nodes.getD i dfltNode).kind) =
           countKind (nodes.take j) ((nodes.getD j dfltNode).kind)))) := by
  constructor
  · intro nodes hnd
    unfold assignVarNames varNamesList
    rw [assignVarNames_eq_zip nodes [] [] (by simp) hnd]
    simp
  · intro nodes i j hi hj
    unfold varNamesList
    rw [varNamesAux_getD nodes [] i hi, varNamesAux_getD nodes [] j hj]
    rw [show getAL ([] : List (String × Nat))
        ((nodes.getD i dfltNode).kind) = none from rfl,
      show getAL ([] : List (String × Nat))
        ((nodes.getD j dfltNode).kind) = none from rfl]
    simp only [Option.getD_none, Nat.zero_add]
    exact mkName_inj _ _ (baseOf_mem _) (baseOf_mem _) _ _

/-- Witness for C8's amended claim on the classifier/regressor pair. -/
theorem C8_amended_witness :
    (assignVarNames
        [{ id := "c", label := "C", kind := "classifier" },
         { id := "r", label := "R", kind := "regressor" }] =
      (([{ id := "c", label := "C", kind := "classifier" },
         { id := "r", label := "R", kind := "regressor" }] :
          List NodeData).map (·.id)).zip
        (varNamesList
          [{ id := "c", label := "C", kind := "classifier" },
           { id := "r", label := "R", kind := "regressor" }])) ∧
    ((varNamesList
        [{ id := "c", label := "C", kind := "classifier" },
         { id := "r", label := "R", kind := "regressor" }]).getD 0 "" =
      (varNamesList
        [{ id := "c", label := "C", kind := "classifier" },
         { id := "r", label := "R", kind := "regressor" }]).getD 1 "" ↔
      (baseOf "classifier" = baseOf "regressor" ∧
       (0 : Nat) = (0 : Nat))) := by
  constructor
  · exact C8_amended_name_characterization.1
      [{ id := "c", label := "C", kind := "classifier" },
       { id := "r", label := "R", kind := "regressor" }] (by decide)
  · have h := C8_amended_name_characterization.2
      [{ id := "c", label := "C", kind := "classifier" },
       { id := "r", label := "R", kind := "regressor" }] 0 1
      (by decide) (by decide)
    simpa [dfltNode, countKind] using h

/-! ### Claim C2: Kahn's algorithm — definitions and map-shape lemmas -/

/-- The out-neighbor list of `w` (targets of `w`'s outgoing connections, in
connection order). -/
def outsAux (cs : List ConnectionData) (w : String) : List String :=
  (cs.filter (fun c => c.source = w)).map (·.target)

/-- The pending in-degree of `v`: connections into `v` whose source has not
been processed yet. -/
def pending (cs : List ConnectionData) (P : List String) (v : String) : Int :=
  ((cs.filter (fun c => c.target = v ∧ ¬(c.source ∈ P))).length : Int)

/-- Folding `setAL` over nodes with fresh distinct keys builds the evident
association list. -/
theorem foldl_setAL_nodup {α : Type} (val : NodeData → α) :
    ∀ (nodes : List NodeData) (acc : List (String × α)),
      (∀ n ∈ nodes, ¬acc.any (fun p => p.1 = n.id) = true) →
      (nodes.map (·.id)).Nodup →
      nodes.foldl (fun m n => setAL m n.id (val n)) acc =
        acc ++ nodes.map (fun n => (n.id, val n)) := by
  intro nodes
  induction nodes with
  | nil => intro acc _ _; simp
  | cons n rest ih =>
    intro acc hacc hnd
    simp only [List.foldl_cons, List.map_cons]
    have hset : setAL acc n.id (val n) = acc ++ [(n.id, val n)] := by
      unfold setAL
      rw [if_neg (hacc n (by simp))]
    rw [hset, ih (acc ++ [(n.id, val n)]) ?_ ?_]
    · simp
    · intro m hm
      simp only [List.any_append, Bool.or_eq_true, not_or]
      refine ⟨hacc m (by simp [hm]), ?_⟩
      simp only [List.any_cons, List.any_nil, Bool.or_false]
      intro heq
      have heq2 : n.id = m.id := by simpa using heq
      simp only [List.map_cons, List.nodup_cons] at hnd
      exact hnd.1 (by rw [heq2]; exact List.mem_map_of_mem (·.id) hm)
    · simp only [List.map_cons, List.nodup_cons] at hnd
      exact hnd.2

/-- Lookup in an id-keyed map whose values factor through the id. -/
theorem getAL_map_shape {α : Type} (f : String → α) :
    ∀ (nodes : List NodeData) (v : String),
      getAL (nodes.map (fun n => (n.id, f n.id))) v =
        if v ∈ nodes.map (·.id) then some (f v) else none := by
  intro nodes
  induction nodes with
  | nil => intro v; simp [getAL]
  | cons n rest ih =>
    intro v
    by_cases hv : n.id = v
    · simp [getAL, List.find?_cons, hv]
    · have h1 : getAL ((n.id, f n.id) ::
          rest.map (fun m => (m.id, f m.id))) v =
          getAL (rest.map (fun m => (m.id, f m.id))) v := by
        simp [getAL, List.find?_cons, hv]
      simp only [List.map_cons]
      rw [h1, ih v]
      simp [hv, Ne.symm]

/-- In-place update of an id-keyed map whose values factor through the
id. -/
theorem setAL_map_shape {α : Type} (f : String → α) :
    ∀ (nodes : List NodeData) (v : String) (x : α),
      v ∈ nodes.map (·.id) →
      setAL (nodes.map (fun n => (n.id, f n.id))) v x =
        nodes.map (fun n => (n.id, if n.id = v then x else f n.id)) := by
  intro nodes v x hv
  unfold setAL
  have hany : (nodes.map (fun n => (n.id, f n.id))).any
      (fun p => p.1 = v) = true := by
    rw [List.any_eq_true]
    obtain ⟨n, hn, hid⟩ := List.mem_map.mp hv
    exact ⟨(n.id, f n.id), List.mem_map_of_mem _ hn, by simpa using hid⟩
  rw [if_pos hany, List.map_map]
  apply List.map_congr_left
  intro n _
  by_cases hn : n.id = v
  · simp [hn]
  · simp [hn]

/-- `pushAL` on an id-keyed map whose values factor through the id. -/
theorem pushAL_map_shape (g : String → List String) :
    ∀ (nodes : List NodeData) (s t : String),
      pushAL (nodes.map (fun n => (n.id, g n.id))) s t =
        nodes.map (fun n =>
          (n.id, if n.id = s then g n.id ++ [t] else g n.id)) := by
  intro nodes s t
  unfold pushAL
  rw [List.map_map]
  apply List.map_congr_left
  intro n _
  by_cases hn : n.id = s
  · simp [hn]
  · simp [hn]

/-- A fold whose step acts componentwise on a pair splits into two folds. -/
theorem foldl_pair_split {α β γ : Type} (fg : α → γ → α) (fm : β → γ → β) :
    ∀ (cs : List γ) (a : α) (b : β),
      cs.foldl (fun st c => (fg st.1 c, fm st.2 c)) (a, b) =
        (cs.foldl fg a, cs.foldl fm b) := by
  intro cs
  induction cs with
  | nil => intro a b; rfl
  | cons c rest ih => intro a b; simp only [List.foldl_cons]; exact ih _ _

/-- The in-degree fold over connections increments an id-keyed counter map
pointwise by the number of connections targeting each id. -/
theorem inDegFold (nodes : List NodeData) :
    ∀ (cs : List ConnectionData) (f : String → Int)
      (m : List (String × Int)),
      m = nodes.map (fun n => (n.id, f n.id)) →
      (∀ c ∈ cs, c.target ∈ nodes.map (·.id)) →
      cs.foldl (fun m c =>
          setAL m c.target (((getAL m c.target).getD 0) + 1)) m =
        nodes.map (fun n =>
          (n.id, f n.id +
            ((cs.filter (fun c => c.target = n.id)).length : Int))) := by
  intro cs
  induction cs with
  | nil =>
    intro f m hm _
    simp [hm]
  | cons c rest ih =>
    intro f m hm hwf
    have htv : c.target ∈ nodes.map (·.id) := hwf c (by simp)
    simp only [List.foldl_cons]
    have hstep : setAL m c.target (((getAL m c.target).getD 0) + 1) =
        nodes.map (fun n => (n.id,
          (fun v => if v = c.target then f c.target + 1 else f v) n.id)) := by
      rw [hm, getAL_map_shape f nodes c.target, if_pos htv,
          setAL_map_shape f nodes c.target _ htv]
      simp
    rw [ih (fun v => if v = c.target then f c.target + 1 else f v) _ hstep
        (fun d hd => hwf d (by simp [hd]))]
    apply List.map_congr_left
    intro n _
    dsimp only
    simp only [List.filter_cons]
    by_cases hn : c.target = n.id
    · rw [if_pos (show (decide (c.target = n.id)) = true from by simp [hn]),
          if_pos hn.symm, hn, List.length_cons]
      refine congrArg (Prod.mk n.id) ?_
      push_cast
      ring
    · rw [if_neg (show ¬(decide (c.target = n.id)) = true from by simp [hn]),
          if_neg (fun h => hn h.symm)]

/-- The adjacency fold over connections appends each connection's target to
its source's out-neighbor list. -/
theorem graphFold (nodes : List NodeData) :
    ∀ (cs : List ConnectionData) (g : String → List String)
      (m : List (String × List String)),
      m = nodes.map (fun n => (n.id, g n.id)) →
      cs.foldl (fun m c => pushAL m c.source c.target) m =
        nodes.map (fun n => (n.id, g n.id ++ outsAux cs n.id)) := by
  intro cs
  induction cs with
  | nil =>
    intro g m hm
    simp [hm, outsAux]
  | cons c rest ih =>
    intro g m hm
    simp only [List.foldl_cons]
    have hstep : pushAL m c.source c.target =
        nodes.map (fun n => (n.id,
          (fun v => if v = c.source then g v ++ [c.target] else g v)
            n.id)) := by
      rw [hm, pushAL_map_shape g nodes c.source c.target]
    rw [ih (fun v => if v = c.source then g v ++ [c.target] else g v) _ hstep]
    apply List.map_congr_left
    intro n _
    dsimp only
    unfold outsAux
    simp only [List.filter_cons]
    by_cases hn : c.source = n.id
    · rw [if_pos (show (decide (c.source = n.id)) = true from by simp [hn]),
          if_pos hn.symm, List.map_cons]
      refine congrArg (Prod.mk n.id) ?_
      simp
    · rw [if_neg (show ¬(decide (c.source = n.id)) = true from by simp [hn]),
          if_neg (fun h => hn h.symm)]

/-- Counting a vertex in an out-neighbor list counts the connections between
the two endpoints. -/
theorem count_outsAux (w v : String) :
    ∀ cs : List ConnectionData,
      (outsAux cs w).count v =
        (cs.filter (fun c => c.source = w ∧ c.target = v)).length := by
  intro cs
  induction cs with
  | nil => rfl
  | cons c rest ih =>
    unfold outsAux at *
    simp only [List.filter_cons]
    by_cases hs : c.source = w
    · by_cases ht : c.target = v
      · simp [hs, ht, List.count_cons, ih]
      · simp [hs, ht, List.count_cons, ih]
    · simp [hs, ih]

/-- Splitting the pending count of `v` at a new processed vertex `w`. -/
theorem pending_split (P : List String) (w : String) (hw : w ∉ P)
    (v : String) :
    ∀ cs : List ConnectionData,
      (cs.filter (fun c => c.target = v ∧ ¬(c.source ∈ P))).length =
      (cs.filter (fun c => c.target = v ∧ ¬(c.source ∈ P ++ [w]))).length +
      (cs.filter (fun c => c.source = w ∧ c.target = v)).length := by
  intro cs
  induction cs with
  | nil => rfl
  | cons c rest ih =>
    simp only [List.filter_cons]
    by_cases ht : c.target = v
    · by_cases hsw : c.source = w
      · have h1 : ¬(c.source ∈ P) := by rw [hsw]; exact hw
        have h2 : c.source ∈ P ++ [w] := by simp [hsw]
        rw [if_pos (show (decide (c.target = v ∧ ¬(c.source ∈ P))) = true
              from by simp [ht, h1]),
            if_neg (show ¬(decide
                (c.target = v ∧ ¬(c.source ∈ P ++ [w]))) = true
              from by simp [h2]),
            if_pos (show (decide (c.source = w ∧ c.target = v)) = true
              from by simp [hsw, ht]),
            List.length_cons, List.length_cons]
        omega
      · by_cases hsP : c.source ∈ P
        · have h2 : c.source ∈ P ++ [w] := by simp [hsP]
          rw [if_neg (show ¬(decide
                  (c.target = v ∧ ¬(c.source ∈ P))) = true
                from by simp [hsP]),
              if_neg (show ¬(decide
                  (c.target = v ∧ ¬(c.source ∈ P ++ [w]))) = true
                from by simp [h2]),
              if_neg (show ¬(decide (c.source = w ∧ c.target = v)) = true
                from by simp [hsw])]
          exact ih
        · have h2 : ¬(c.source ∈ P ++ [w]) := by simp [hsP, hsw]
          rw [if_pos (show (decide (c.target = v ∧ ¬(c.source ∈ P))) = true
                from by simp [ht, hsP]),
              if_pos (show (decide
                  (c.target = v ∧ ¬(c.source ∈ P ++ [w]))) = true
                from by simp [ht, h2]),
              if_neg (show ¬(decide (c.source = w ∧ c.target = v)) = true
                from by simp [hsw]),
              List.length_cons, List.length_cons]
          omega
    · rw [if_neg (show ¬(decide (c.target = v ∧ ¬(c.source ∈ P))) = true
            from by simp [ht]),
          if_neg (show ¬(decide
              (c.target = v ∧ ¬(c.source ∈ P ++ [w]))) = true
            from by simp [ht]),
          if_neg (show ¬(decide (c.source = w ∧ c.target = v)) = true
            from by simp [ht])]
      exact ih

/-- Processing `w` lowers the pending in-degree of `v` by the number of
`w → v` connections. -/
theorem pending_append (cs : List ConnectionData) (P : List String)
    (w : String) (hw : w ∉ P) (v : String) :
    pending cs (P ++ [w]) v =
      pending cs P v - ((outsAux cs w).count v : Int) := by
  unfold pending
  rw [count_outsAux]
  have := pending_split P w hw v cs
  omega

/-- The number of `w → v` connections is at most the pending in-degree of `v`
while `w` is unprocessed. -/
theorem count_le_pending (cs : List ConnectionData) (P : List String)
    (w : String) (hw : w ∉ P) (v : String) :
    ((outsAux cs w).count v : Int) ≤ pending cs P v := by
  unfold pending
  rw [count_outsAux]
  have := pending_split P w hw v cs
  omega

/-- Pending in-degrees are nonnegative. -/
theorem pending_nonneg (cs : List ConnectionData) (P : List String)
    (v : String) : 0 ≤ pending cs P v := by
  unfold pending
  exact Int.natCast_nonneg _

/-- Zero pending in-degree means every connection into `v` has a processed
source. -/
theorem pending_eq_zero_iff (cs : List ConnectionData) (P : List String)
    (v : String) :
    pending cs P v = 0 ↔ ∀ c ∈ cs, c.target = v → c.source ∈ P := by
  unfold pending
  rw [show ((((cs.filter
      (fun c => c.target = v ∧ ¬(c.source ∈ P))).length : Int)) = 0 ↔
      (cs.filter (fun c => c.target = v ∧ ¬(c.source ∈ P))).length = 0) from
    by omega]
  rw [List.length_eq_zero, List.filter_eq_nil_iff]
  constructor
  · intro h c hc htv
    by_contra hsrc
    exact h c hc (by simp [htv, hsrc])
  · intro h c hc
    simp only [decide_eq_true_eq, not_and, not_not]
    intro htv
    exact h c hc htv

/-- Positive pending in-degree exhibits a connection into `v`. -/
theorem exists_edge_of_pending_pos (cs : List ConnectionData)
    (P : List String) (v : String) (h : 0 < pending cs P v) :
    ∃ c ∈ cs, c.target = v := by
  unfold pending at h
  have hlen : (cs.filter (fun c => c.target = v ∧ ¬(c.source ∈ P))).length ≠
      0 := by omega
  obtain ⟨c, hc⟩ := List.exists_mem_of_length_pos (Nat.pos_of_ne_zero hlen)
  have := List.mem_filter.mp hc
  refine ⟨c, this.1, ?_⟩
  have := this.2
  simp only [decide_eq_true_eq] at this
  exact this.1

/-- The seed queue extraction: filtering an id-keyed map for zero values and
projecting keys filters the nodes. -/
theorem filter_map_fst (f : String → Int) :
    ∀ nodes : List NodeData,
      ((nodes.map (fun n => (n.id, f n.id))).filter
          (fun p => p.2 = 0)).map (·.1) =
        (nodes.filter (fun n => f n.id = 0)).map (·.id) := by
  intro nodes
  induction nodes with
  | nil => rfl
  | cons n rest ih =>
    simp only [List.map_cons, List.filter_cons]
    by_cases h : f n.id = 0
    · simp [h, ih]
    · simp [h, ih]

/-- Unfolding one step of `relaxNeighbors`. -/
theorem relaxNeighbors_cons (nb : String) (rest : List String)
    (st : List (String × Int) × List String) :
    relaxNeighbors (nb :: rest) st =
      relaxNeighbors rest
        (setAL st.1 nb ((getAL st.1 nb).getD 0 - 1),
         if (getAL st.1 nb).getD 0 - 1 = 0 then st.2 ++ [nb] else st.2) :=
  rfl

/-- Specification of `relaxNeighbors` on an id-keyed in-degree map: every
neighbor's count drops by its multiplicity, and the queue is extended (each
at most once) by exactly the vertices whose count thereby reaches zero. -/
theorem relaxNeighbors_spec (nodes : List NodeData) :
    ∀ (ns : List String) (f : String → Int) (q : List String)
      (m : List (String × Int)),
      m = nodes.map (fun n => (n.id, f n.id)) →
      (∀ v ∈ ns, v ∈ nodes.map (·.id)) →
      ∃ new : List String,
        relaxNeighbors ns (m, q) =
          (nodes.map (fun n => (n.id, f n.id - (ns.count n.id : Int))),
           q ++ new) ∧
        new.Nodup ∧
        (∀ v, v ∈ new ↔
          (v ∈ nodes.map (·.id) ∧ 1 ≤ f v ∧ f v ≤ (ns.count v : Int))) := by
  intro ns
  induction ns with
  | nil =>
    intro f q m hm _
    refine ⟨[], ?_, List.nodup_nil, ?_⟩
    · show (m, q) = _
      rw [List.append_nil, hm]
      refine congrArg (fun l => (l, q)) ?_
      apply List.map_congr_left
      intro n _
      simp
    · intro v
      simp only [List.not_mem_nil, List.count_nil, Nat.cast_zero, false_iff]
      rintro ⟨-, h1, h2⟩
      omega
  | cons nb rest ih =>
    intro f q m hm hns
    have hnb : nb ∈ nodes.map (·.id) := hns nb (by simp)
    have hget : getAL m nb = some (f nb) := by
      rw [hm, getAL_map_shape f nodes nb, if_pos hnb]
    have hm1 : setAL m nb (f nb - 1) =
        nodes.map (fun n =>
          (n.id, if n.id = nb then f nb - 1 else f n.id)) := by
      rw [hm, setAL_map_shape f nodes nb _ hnb]
    obtain ⟨new', heq, hnd', hiff'⟩ :=
      ih (fun v => if v = nb then f nb - 1 else f v)
        (if f nb - 1 = 0 then q ++ [nb] else q)
        (setAL m nb (f nb - 1)) hm1
        (fun v hv => hns v (by simp [hv]))
    refine ⟨(if f nb - 1 = 0 then [nb] else []) ++ new', ?_, ?_, ?_⟩
    · rw [relaxNeighbors_cons]
      dsimp only
      rw [hget]
      simp only [Option.getD_some]
      rw [heq]
      refine Prod.ext ?_ ?_
      · dsimp only
        apply List.map_congr_left
        intro n _
        by_cases hn : n.id = nb
        · rw [if_pos hn, hn]
          refine congrArg (Prod.mk nb) ?_
          have hcnt2 : ((nb :: rest).count nb : Int) =
              (rest.count nb : Int) + 1 := by
            simp [List.count_cons]
          rw [hcnt2]
          ring
        · have hcnt : (nb :: rest).count n.id = rest.count n.id :=
            List.count_cons_of_ne hn rest
          rw [if_neg hn]
          refine congrArg (Prod.mk n.id) ?_
          rw [hcnt]
      · dsimp only
        by_cases hz : f nb - 1 = 0
        · rw [if_pos hz, if_pos hz, List.append_assoc, List.singleton_append]
        · rw [if_neg hz, if_neg hz, List.nil_append]
    · by_cases hz : f nb - 1 = 0
      · rw [if_pos hz]
        simp only [List.singleton_append]
        refine List.nodup_cons.mpr ⟨?_, hnd'⟩
        intro hmem
        obtain ⟨-, h1, -⟩ := (hiff' nb).mp hmem
        rw [if_pos rfl] at h1
        omega
      · rw [if_neg hz]
        simpa using hnd'
    · intro v
      simp only [List.mem_append]
      rw [hiff' v]
      by_cases hv : v = nb
      · subst hv
        rw [if_pos rfl]
        have h0 : (0:Int) ≤ (rest.count v : Int) := Int.natCast_nonneg _
        have hcnt : ((v :: rest).count v : Int) =
            (rest.count v : Int) + 1 := by
          simp [List.count_cons]
        rw [hcnt]
        by_cases hz : f v - 1 = 0
        · rw [if_pos hz]
          simp only [List.mem_singleton]
          constructor
          · intro _
            exact ⟨hnb, by omega, by omega⟩
          · intro _
            exact Or.inl (by simp)
        · rw [if_neg hz]
          simp only [List.not_mem_nil, false_or]
          constructor
          · rintro ⟨hid, h1, h2⟩
            exact ⟨hid, by omega, by omega⟩
          · rintro ⟨hid, h1, h2⟩
            exact ⟨hid, by omega, by omega⟩
      · have hnotin : ¬(v ∈ (if f nb - 1 = 0 then [nb] else [])) := by
          by_cases hz : f nb - 1 = 0 <;> simp [hz, hv]
        have hcnt : (nb :: rest).count v = rest.count v :=
          List.count_cons_of_ne hv rest
        rw [hcnt, if_neg hv]
        constructor
        · rintro (hin | h)
          · exact absurd hin hnotin
          · exact h
        · intro h
          exact Or.inr h

/-- Out-neighbor lists stay inside the node-id set when connection targets
do. -/
theorem outsAux_subset (nodes : List NodeData) (cs : List ConnectionData)
    (hwfT : ∀ c ∈ cs, c.target ∈ nodes.map (·.id)) (w : String) :
    ∀ v ∈ outsAux cs w, v ∈ nodes.map (·.id) := by
  intro v hv
  unfold outsAux at hv
  obtain ⟨c, hc, rfl⟩ := List.mem_map.mp hv
  exact hwfT c (List.mem_filter.mp hc).1

/-- A duplicate-free list contained in another list is no longer than it. -/
theorem nodup_length_le (l m : List String) (hnd : l.Nodup)
    (hsub : ∀ v ∈ l, v ∈ m) : l.length ≤ m.length := by
  calc l.length = l.toFinset.card := (List.toFinset_card_of_nodup hnd).symm
    _ ≤ m.toFinset.card := Finset.card_le_card
        (fun x hx => List.mem_toFinset.mpr (hsub x (List.mem_toFinset.mp hx)))
    _ ≤ m.length := m.toFinset_card_le

/-- Looking an id up in the node map yields a node of the list bearing that
id. -/
theorem getAL_nodeMap_mem :
    ∀ (nodes : List NodeData) (w : String), w ∈ nodes.map (·.id) →
      ∃ n, getAL (nodes.map (fun n => (n.id, n))) w = some n ∧
        n ∈ nodes ∧ n.id = w := by
  intro nodes
  induction nodes with
  | nil =>
    intro w hw
    simp at hw
  | cons nd rest ih =>
    intro w hw
    by_cases hn : nd.id = w
    · refine ⟨nd, ?_, by simp, hn⟩
      simp [getAL, List.find?_cons, hn]
    · have hw' : w ∈ rest.map (·.id) := by
        simp only [List.map_cons, List.mem_cons] at hw
        rcases hw with h | h
        · exact absurd h.symm hn
        · exact h
      obtain ⟨m, hget, hmem, hid⟩ := ih w hw'
      refine ⟨m, ?_, List.mem_cons_of_mem _ hmem, hid⟩
      rw [show getAL ((nd :: rest).map (fun n => (n.id, n))) w =
          getAL (rest.map (fun n => (n.id, n))) w from by
        simp [getAL, List.find?_cons, hn]]
      exact hget

/-- A vertex all of whose in-edges come from processed sources has pending
in-degree zero. -/
theorem pending_zero_of_closed (cs : List ConnectionData) (P : List String)
    (v : String) (hclosed : ∀ c ∈ cs, c.target ∈ P → c.source ∈ P)
    (hv : v ∈ P) : pending cs P v = 0 :=
  (pending_eq_zero_iff cs P v).mpr
    (fun c hc ht => hclosed c hc (by rwa [ht]))

/-- Unfolding one step of `kahnLoop` at a nonempty queue. -/
theorem kahnLoop_cons (graph : List (String × List String))
    (nodeMap : List (String × NodeData)) (fuel : Nat)
    (inDeg : List (String × Int)) (w : String) (rest : List String)
    (sorted : List NodeData) :
    kahnLoop graph nodeMap (fuel + 1) inDeg (w :: rest) sorted =
      kahnLoop graph nodeMap fuel
        (relaxNeighbors ((getAL graph w).getD []) (inDeg, rest)).1
        (relaxNeighbors ((getAL graph w).getD []) (inDeg, rest)).2
        (match getAL nodeMap w with
          | some n => sorted ++ [n]
          | none => sorted) := rfl

/-- The invariant maintained by `kahnLoop`: `P` is the list of already
processed ids, `inDeg` holds the pending in-degrees, and `queue` holds
exactly the unprocessed ids whose pending in-degree is zero. -/
structure KahnInv (nodes : List NodeData) (cs : List ConnectionData)
    (P : List String) (inDeg : List (String × Int))
    (queue : List String) : Prop where
  shape : inDeg = nodes.map (fun n => (n.id, pending cs P n.id))
  nodupPQ : (P ++ queue).Nodup
  subP : ∀ v ∈ P, v ∈ nodes.map (·.id)
  subQ : ∀ v ∈ queue, v ∈ nodes.map (·.id)
  queueIff : ∀ v ∈ nodes.map (·.id), v ∉ P →
    (v ∈ queue ↔ pending cs P v = 0)
  closed : ∀ c ∈ cs, c.target ∈ P → c.source ∈ P
  ready : ∀ v ∈ queue, ∀ c ∈ cs, c.target = v → c.source ∈ P
  noBack : P.Pairwise
    (fun u v => ∀ c ∈ cs, ¬(c.source = v ∧ c.target = u))

/-- A nonempty list has an element of minimal image. -/
theorem exists_min_rank (f : String → Nat) :
    ∀ (l : List String), l ≠ [] → ∃ a ∈ l, ∀ b ∈ l, f a ≤ f b := by
  intro l
  induction l with
  | nil =>
    intro h
    exact absurd rfl h
  | cons x rest ih =>
    intro _
    by_cases hr : rest = []
    · subst hr
      refine ⟨x, by simp, ?_⟩
      intro b hb
      rw [List.mem_singleton] at hb
      rw [hb]
    · obtain ⟨a, hmem, hmin⟩ := ih hr
      by_cases hxa : f x ≤ f a
      · refine ⟨x, by simp, ?_⟩
        intro b hb
        rcases List.mem_cons.mp hb with h | h
        · rw [h]
        · exact le_trans hxa (hmin b h)
      · refine ⟨a, by simp [hmem], ?_⟩
        intro b hb
        rcases List.mem_cons.mp hb with h | h
        · rw [h]
          exact le_of_lt (Nat.lt_of_not_le hxa)
        · exact hmin b h

/-- When the queue is empty, the invariant plus acyclicity (via a rank
function) force every node to be processed. -/
theorem kahn_complete (nodes : List NodeData) (cs : List ConnectionData)
    (hwfS : ∀ c ∈ cs, c.source ∈ nodes.map (·.id))
    (r : String → Nat) (hr : ∀ c ∈ cs, r c.source < r c.target)
    (P : List String) (inDeg : List (String × Int))
    (inv : KahnInv nodes cs P inDeg []) :
    ∀ v ∈ nodes.map (·.id), v ∈ P := by
  by_contra hcon
  push_neg at hcon
  obtain ⟨v0, hv0, hv0P⟩ := hcon
  have hSne : (nodes.map (·.id)).filter (fun v => ¬(v ∈ P)) ≠ [] := by
    intro hnil
    have hmem : v0 ∈ (nodes.map (·.id)).filter (fun v => ¬(v ∈ P)) := by
      rw [List.mem_filter]
      exact ⟨hv0, by simpa using hv0P⟩
    rw [hnil] at hmem
    exact absurd hmem (List.not_mem_nil v0)
  obtain ⟨u, hu, humin⟩ := exists_min_rank r _ hSne
  have huids : u ∈ nodes.map (·.id) := (List.mem_filter.mp hu).1
  have huP : ¬(u ∈ P) := by
    have := (List.mem_filter.mp hu).2
    simpa using this
  have hpend : pending cs P u = 0 := by
    rw [pending_eq_zero_iff]
    intro c hc htc
    by_contra hsrc
    have hsid : c.source ∈ nodes.map (·.id) := hwfS c hc
    have hsS : c.source ∈ (nodes.map (·.id)).filter (fun v => ¬(v ∈ P)) := by
      rw [List.mem_filter]
      exact ⟨hsid, by simpa using hsrc⟩
    have hle := humin c.source hsS
    have hlt := hr c hc
    rw [htc] at hlt
    omega
  have := (inv.queueIff u huids huP).mpr hpend
  exact absurd this (List.not_mem_nil u)

/-- Main correctness lemma for `kahnLoop`: with enough fuel, starting from
any state satisfying the invariant, the loop emits (appended to `sorted`) the
nodes of a duplicate-free id sequence `Q` that together with `P` covers all
node ids and never places the target of a connection before its source. -/
theorem kahnLoop_spec (nodes : List NodeData) (cs : List ConnectionData)
    (hwfS : ∀ c ∈ cs, c.source ∈ nodes.map (·.id))
    (hwfT : ∀ c ∈ cs, c.target ∈ nodes.map (·.id))
    (r : String → Nat) (hr : ∀ c ∈ cs, r c.source < r c.target)
    (graph : List (String × List String))
    (hgraph : graph = nodes.map (fun n => (n.id, outsAux cs n.id)))
    (nodeMap : List (String × NodeData))
    (hnodeMap : nodeMap = nodes.map (fun n => (n.id, n))) :
    ∀ (fuel : Nat) (P queue : List String) (inDeg : List (String × Int))
      (sorted : List NodeData),
      KahnInv nodes cs P inDeg queue →
      (nodes.map (·.id)).length ≤ P.length + fuel →
      ∃ Q : List String,
        kahnLoop graph nodeMap fuel inDeg queue sorted =
          sorted ++ Q.filterMap (fun v => getAL nodeMap v) ∧
        (P ++ Q).Nodup ∧
        (∀ v ∈ Q, v ∈ nodes.map (·.id)) ∧
        (∀ v ∈ nodes.map (·.id), v ∈ P ++ Q) ∧
        (P ++ Q).Pairwise
          (fun u v => ∀ c ∈ cs, ¬(c.source = v ∧ c.target = u)) := by
  intro fuel
  induction fuel with
  | zero =>
    intro P queue inDeg sorted inv hbudget
    cases queue with
    | nil =>
      refine ⟨[], by simp [kahnLoop], by simpa using inv.nodupPQ,
        by simp, ?_, by simpa using inv.noBack⟩
      intro v hv
      rw [List.append_nil]
      exact kahn_complete nodes cs hwfS r hr P inDeg inv v hv
    | cons w rest =>
      exfalso
      have hsub : (P ++ [w]).Sublist (P ++ (w :: rest)) :=
        List.Sublist.append_left
          (List.cons_sublist_cons.mpr (List.nil_sublist rest)) P
      have hnd : (P ++ [w]).Nodup := List.Nodup.sublist hsub inv.nodupPQ
      have hsubids : ∀ v ∈ P ++ [w], v ∈ nodes.map (·.id) := by
        intro v hv
        rcases List.mem_append.mp hv with h | h
        · exact inv.subP v h
        · rw [List.mem_singleton] at h
          rw [h]
          exact inv.subQ w (by simp)
      have hlen := nodup_length_le (P ++ [w]) (nodes.map (·.id)) hnd hsubids
      rw [List.length_append, List.length_singleton] at hlen
      omega
  | succ fuel ih =>
    intro P queue inDeg sorted inv hbudget
    cases queue with
    | nil =>
      refine ⟨[], by simp [kahnLoop], by simpa using inv.nodupPQ,
        by simp, ?_, by simpa using inv.noBack⟩
      intro v hv
      rw [List.append_nil]
      exact kahn_complete nodes cs hwfS r hr P inDeg inv v hv
    | cons w rest =>
      have hw_ids : w ∈ nodes.map (·.id) := inv.subQ w (by simp)
      have hwP : ¬(w ∈ P) := by
        intro hwp
        have hnd := inv.nodupPQ
        rw [List.nodup_append] at hnd
        exact hnd.2.2 hwp (by simp)
      have hgw : getAL graph w = some (outsAux cs w) := by
        rw [hgraph, getAL_map_shape (fun v => outsAux cs v) nodes w,
          if_pos hw_ids]
      obtain ⟨n0, hn0get, hn0mem, hn0id⟩ := getAL_nodeMap_mem nodes w hw_ids
      have hn0get' : getAL nodeMap w = some n0 := by
        rw [hnodeMap]
        exact hn0get
      obtain ⟨new, hrelax, hnewnd, hnewiff⟩ :=
        relaxNeighbors_spec nodes (outsAux cs w) (fun v => pending cs P v)
          rest inDeg inv.shape (outsAux_subset nodes cs hwfT w)
      have hshape' : (nodes.map (fun n =>
          (n.id, pending cs P n.id - ((outsAux cs w).count n.id : Int)))) =
          nodes.map (fun n => (n.id, pending cs (P ++ [w]) n.id)) := by
        apply List.map_congr_left
        intro n _
        refine congrArg (Prod.mk n.id) ?_
        rw [pending_append cs P w hwP n.id]
      have hnew_pend0 : ∀ v ∈ new, pending cs (P ++ [w]) v = 0 := by
        intro v hv
        obtain ⟨hvids, h1, h2⟩ := (hnewiff v).mp hv
        have h3 := pending_nonneg cs (P ++ [w]) v
        rw [pending_append cs P w hwP v] at h3 ⊢
        omega
      have hnew_notP : ∀ v ∈ new, ¬(v ∈ P) := by
        intro v hv hvP
        obtain ⟨hvids, h1, h2⟩ := (hnewiff v).mp hv
        have := pending_zero_of_closed cs P v inv.closed hvP
        omega
      have hnew_ne_w : ∀ v ∈ new, ¬(v = w) := by
        intro v hv hvw
        obtain ⟨hvids, h1, h2⟩ := (hnewiff v).mp hv
        have hw0 : pending cs P w = 0 := by
          rw [pending_eq_zero_iff]
          intro c hc htc
          exact inv.ready w (by simp) c hc htc
        rw [hvw] at h1
        omega
      have hnew_notrest : ∀ v ∈ new, ¬(v ∈ rest) := by
        intro v hv hvr
        obtain ⟨hvids, h1, h2⟩ := (hnewiff v).mp hv
        have hvP : ¬(v ∈ P) := hnew_notP v hv
        have := (inv.queueIff v hvids hvP).mp (by simp [hvr])
        omega
      have hrest_sub : ∀ v ∈ rest, v ∈ nodes.map (·.id) :=
        fun v hv => inv.subQ v (by simp [hv])
      have hrest_notP : ∀ v ∈ rest, ¬(v ∈ P) := by
        intro v hv hvP
        have hnd := inv.nodupPQ
        rw [List.nodup_append] at hnd
        exact hnd.2.2 hvP (by simp [hv])
      have hrest_pend0 : ∀ v ∈ rest, pending cs (P ++ [w]) v = 0 := by
        intro v hv
        have h0 := (inv.queueIff v (hrest_sub v hv)
          (hrest_notP v hv)).mp (by simp [hv])
        have hc := count_le_pending cs P w hwP v
        have hn := pending_nonneg cs (P ++ [w]) v
        rw [pending_append cs P w hwP v] at hn ⊢
        omega
      have inv' : KahnInv nodes cs (P ++ [w])
          (nodes.map (fun n => (n.id, pending cs (P ++ [w]) n.id)))
          (rest ++ new) := by
        refine ⟨rfl, ?_, ?_, ?_, ?_, ?_, ?_, ?_⟩
        · rw [show (P ++ [w]) ++ (rest ++ new) =
              ((P ++ [w]) ++ rest) ++ new from by
            simp [List.append_assoc]]
          refine List.Nodup.append ?_ hnewnd ?_
          · rw [List.append_assoc, List.singleton_append]
            exact inv.nodupPQ
          · intro a ha hb
            rcases List.mem_append.mp ha with h | hR
            · rcases List.mem_append.mp h with hP | hW
              · exact hnew_notP a hb hP
              · exact hnew_ne_w a hb (by simpa using hW)
            · exact hnew_notrest a hb hR
        · intro v hv
          rcases List.mem_append.mp hv with h | h
          · exact inv.subP v h
          · rw [List.mem_singleton] at h
            rw [h]
            exact hw_ids
        · intro v hv
          rcases List.mem_append.mp hv with h | h
          · exact hrest_sub v h
          · exact ((hnewiff v).mp h).1
        · intro v hvids hvP'
          have hvP : ¬(v ∈ P) := fun h => hvP'
            (List.mem_append.mpr (Or.inl h))
          have hvw : ¬(v = w) := fun h => hvP' (by simp [h])
          constructor
          · intro hvq
            rcases List.mem_append.mp hvq with h | h
            · exact hrest_pend0 v h
            · exact hnew_pend0 v h
          · intro hp0
            rw [pending_append cs P w hwP v] at hp0
            have hcle := count_le_pending cs P w hwP v
            have hpnn := pending_nonneg cs P v
            by_cases hcase : pending cs P v = 0
            · have hvq : v ∈ w :: rest :=
                (inv.queueIff v hvids hvP).mpr hcase
              rcases List.mem_cons.mp hvq with h | h
              · exact absurd h hvw
              · exact List.mem_append.mpr (Or.inl h)
            · refine List.mem_append.mpr
                (Or.inr ((hnewiff v).mpr ⟨hvids, ?_, ?_⟩))
              · omega
              · omega
        · intro c hc htc
          rcases List.mem_append.mp htc with h | h
          · exact List.mem_append.mpr (Or.inl (inv.closed c hc h))
          · rw [List.mem_singleton] at h
            exact List.mem_append.mpr
              (Or.inl (inv.ready w (by simp) c hc h))
        · intro v hv c hc htc
          rcases List.mem_append.mp hv with h | h
          · exact List.mem_append.mpr
              (Or.inl (inv.ready v (by simp [h]) c hc htc))
          · have h0 := hnew_pend0 v h
            rw [pending_eq_zero_iff] at h0
            exact h0 c hc htc
        · rw [List.pairwise_append]
          refine ⟨inv.noBack, List.pairwise_singleton _ _, ?_⟩
          intro u hu v hv c hc hcon
          obtain ⟨hcs, hct⟩ := hcon
          rw [List.mem_singleton] at hv
          have hsrcP : c.source ∈ P := inv.closed c hc (by rwa [hct])
          rw [hcs, hv] at hsrcP
          exact hwP hsrcP
      have hbud' : (nodes.map (·.id)).length ≤ (P ++ [w]).length + fuel := by
        rw [List.length_append, List.length_singleton]
        omega
      obtain ⟨Q', heq', hnd', hsub', hcov', hpair'⟩ :=
        ih (P ++ [w]) (rest ++ new)
          (nodes.map (fun n => (n.id, pending cs (P ++ [w]) n.id)))
          (sorted ++ [n0]) inv' hbud'
      have hlistshape : ∀ l : List String, P ++ w :: l = (P ++ [w]) ++ l := by
        intro l
        simp
      refine ⟨w :: Q', ?_, ?_, ?_, ?_, ?_⟩
      · rw [kahnLoop_cons]
        rw [hgw]
        simp only [Option.getD_some]
        rw [hrelax]
        dsimp only
        rw [hshape', hn0get']
        dsimp only
        rw [heq']
        rw [List.filterMap_cons_some hn0get']
        rw [List.append_assoc, List.singleton_append]
      · rw [hlistshape Q']
        exact hnd'
      · intro v hv
        rcases List.mem_cons.mp hv with h | h
        · rw [h]
          exact hw_ids
        · exact hsub' v h
      · intro v hv
        rw [hlistshape Q']
        exact hcov' v hv
      · rw [hlistshape Q']
        exact hpair'

/-- With no processed vertices the pending in-degree is the in-degree. -/
theorem pending_nil (cs : List ConnectionData) (v : String) :
    pending cs [] v = ((cs.filter (fun c => c.target = v)).length : Int) := by
  unfold pending
  congr 2
  apply List.filter_congr
  intro c _
  simp

/-- `topologicalSort` in terms of the characterized initial state: adjacency
and in-degree maps keyed by node ids in insertion order, and the seed queue
listing the zero-in-degree nodes in insertion order. -/
theorem topologicalSort_eq (nodes : List NodeData) (cs : List ConnectionData)
    (hnd : (nodes.map (·.id)).Nodup)
    (hwfT : ∀ c ∈ cs, c.target ∈ nodes.map (·.id)) :
    topologicalSort nodes cs =
      kahnLoop (nodes.map (fun n => (n.id, outsAux cs n.id)))
        (nodes.map (fun n => (n.id, n)))
        (nodes.length + cs.length)
        (nodes.map (fun n => (n.id, pending cs [] n.id)))
        ((nodes.filter (fun n => pending cs [] n.id = 0)).map (·.id)) [] := by
  have hg0 : nodes.foldl (fun g n => setAL g n.id ([] : List String)) [] =
      nodes.map (fun n => (n.id, ([] : List String))) := by
    have h := foldl_setAL_nodup (fun _ => ([] : List String)) nodes []
      (by intro n _; simp) hnd
    simpa using h
  have hi0 : nodes.foldl (fun m n => setAL m n.id (0 : Int)) [] =
      nodes.map (fun n => (n.id, (0 : Int))) := by
    have h := foldl_setAL_nodup (fun _ => (0 : Int)) nodes []
      (by intro n _; simp) hnd
    simpa using h
  have hnm : nodes.foldl (fun m n => setAL m n.id n) [] =
      nodes.map (fun n => (n.id, n)) := by
    have h := foldl_setAL_nodup (fun n => n) nodes []
      (by intro n _; simp) hnd
    simpa using h
  have hgr : cs.foldl (fun m c => pushAL m c.source c.target)
      (nodes.map (fun n => (n.id, ([] : List String)))) =
      nodes.map (fun n => (n.id, outsAux cs n.id)) := by
    rw [graphFold nodes cs (fun _ => ([] : List String))
      (nodes.map (fun n => (n.id, ([] : List String)))) rfl]
    apply List.map_congr_left
    intro n _
    simp
  have hid1 : cs.foldl (fun m c =>
      setAL m c.target (((getAL m c.target).getD 0) + 1))
      (nodes.map (fun n => (n.id, (0 : Int)))) =
      nodes.map (fun n => (n.id, pending cs [] n.id)) := by
    rw [inDegFold nodes cs (fun _ => (0 : Int))
      (nodes.map (fun n => (n.id, (0 : Int)))) rfl hwfT]
    apply List.map_congr_left
    intro n _
    rw [pending_nil]
    simp
  unfold topologicalSort
  dsimp only
  rw [hg0, hi0, hnm,
    foldl_pair_split (fun g (c : ConnectionData) => pushAL g c.source c.target)
      (fun m (c : ConnectionData) =>
        setAL m c.target (((getAL m c.target).getD 0) + 1)) cs
      (nodes.map (fun n => (n.id, ([] : List String))))
      (nodes.map (fun n => (n.id, (0 : Int))))]
  dsimp only
  rw [hgr, hid1, filter_map_fst (fun v => pending cs [] v) nodes]

/-- Projecting the ids of the nodes recovered from an id list through the
node map gives back the id list. -/
theorem filterMap_nodeMap_ids (nodes : List NodeData) :
    ∀ Q : List String, (∀ v ∈ Q, v ∈ nodes.map (·.id)) →
      (Q.filterMap
        (fun v => getAL (nodes.map (fun n => (n.id, n))) v)).map (·.id)
        = Q := by
  intro Q
  induction Q with
  | nil =>
    intro _
    rfl
  | cons v Q' ih =>
    intro hsub
    obtain ⟨n, hget, hmem, hid⟩ :=
      getAL_nodeMap_mem nodes v (hsub v (by simp))
    rw [List.filterMap_cons_some hget, List.map_cons, hid,
      ih (fun u hu => hsub u (by simp [hu]))]

/-- A successful node-map lookup returns a member of the node list. -/
theorem getAL_nodeMap_val (nodes : List NodeData) (u : String) (n : NodeData)
    (h : getAL (nodes.map (fun n => (n.id, n))) u = some n) : n ∈ nodes := by
  unfold getAL at h
  cases hfind : (nodes.map (fun m => (m.id, m))).find? (fun p => p.1 = u) with
  | none =>
    rw [hfind] at h
    simp at h
  | some p =>
    rw [hfind] at h
    have hp := List.mem_of_find?_eq_some hfind
    obtain ⟨m, hm, hpm⟩ := List.mem_map.mp hp
    have hval : p.2 = n := by simpa using h
    rw [← hpm] at hval
    simp only at hval
    rw [← hval]
    exact hm

/-- `findIdx` on nodes by id agrees with `findIdx` on the projected ids. -/
theorem findIdx_map_id (x : String) :
    ∀ s : List NodeData,
      s.findIdx (fun n => n.id = x) =
        (s.map (·.id)).findIdx (fun v => v = x) := by
  intro s
  induction s with
  | nil => rfl
  | cons n s' ih =>
    rw [List.map_cons, List.findIdx_cons, List.findIdx_cons, ih]

/-- `topologicalSort` on a well-formed acyclic graph (distinct node ids,
connection endpoints among the nodes, and a rank function witnessing
acyclicity) returns a permutation of the nodes in which every connection's
source strictly precedes its target. -/
theorem topologicalSort_perm_and_order (nodes : List NodeData)
    (cs : List ConnectionData)
    (hnd : (nodes.map (·.id)).Nodup)
    (hwfS : ∀ c ∈ cs, c.source ∈ nodes.map (·.id))
    (hwfT : ∀ c ∈ cs, c.target ∈ nodes.map (·.id))
    (r : String → Nat) (hr : ∀ c ∈ cs, r c.source < r c.target) :
    (topologicalSort nodes cs).Perm nodes ∧
    ∀ c ∈ cs,
      (topologicalSort nodes cs).findIdx (fun n => n.id = c.source) <
        (topologicalSort nodes cs).findIdx (fun n => n.id = c.target) := by
  have hq0nd : ((nodes.filter
      (fun n => pending cs [] n.id = 0)).map (·.id)).Nodup :=
    List.Nodup.sublist (List.Sublist.map (·.id) (List.filter_sublist nodes))
      hnd
  have inv0 : KahnInv nodes cs []
      (nodes.map (fun n => (n.id, pending cs [] n.id)))
      ((nodes.filter (fun n => pending cs [] n.id = 0)).map (·.id)) := by
    refine ⟨rfl, ?_, ?_, ?_, ?_, ?_, ?_, List.Pairwise.nil⟩
    · rw [List.nil_append]
      exact hq0nd
    · intro v hv
      exact absurd hv (List.not_mem_nil v)
    · intro v hv
      obtain ⟨n, hn, hnid⟩ := List.mem_map.mp hv
      rw [← hnid]
      exact List.mem_map_of_mem _ (List.mem_of_mem_filter hn)
    · intro v hvids _
      constructor
      · intro hq
        obtain ⟨n, hnf, hnid⟩ := List.mem_map.mp hq
        have h0 := (List.mem_filter.mp hnf).2
        rw [← hnid]
        simpa using h0
      · intro h0
        obtain ⟨n, hn, hnid⟩ := List.mem_map.mp hvids
        refine List.mem_map.mpr ⟨n, ?_, hnid⟩
        rw [List.mem_filter]
        refine ⟨hn, ?_⟩
        simp only [decide_eq_true_eq]
        rw [hnid]
        exact h0
    · intro c hc h
      exact absurd h (List.not_mem_nil _)
    · intro v hv c hc htc
      obtain ⟨n, hnf, hnid⟩ := List.mem_map.mp hv
      have h0 : pending cs [] v = 0 := by
        have := (List.mem_filter.mp hnf).2
        rw [← hnid]
        simpa using this
      exact (pending_eq_zero_iff cs [] v).mp h0 c hc htc
  obtain ⟨Q, heq, hQnd, hQsub, hQcov, hQpair⟩ :=
    kahnLoop_spec nodes cs hwfS hwfT r hr
      (nodes.map (fun n => (n.id, outsAux cs n.id))) rfl
      (nodes.map (fun n => (n.id, n))) rfl
      (nodes.length + cs.length) []
      ((nodes.filter (fun n => pending cs [] n.id = 0)).map (·.id))
      (nodes.map (fun n => (n.id, pending cs [] n.id)))
      [] inv0
      (by simp only [List.length_map, List.length_nil]; omega)
  simp only [List.nil_append] at hQnd hQcov hQpair
  have htop : topologicalSort nodes cs =
      Q.filterMap (fun v => getAL (nodes.map (fun n => (n.id, n))) v) := by
    rw [topologicalSort_eq nodes cs hnd hwfT, heq, List.nil_append]
  have hmapid : (topologicalSort nodes cs).map (·.id) = Q := by
    rw [htop]
    exact filterMap_nodeMap_ids nodes Q hQsub
  have hnodesnd : nodes.Nodup := List.Nodup.of_map _ hnd
  have hsortnd : (topologicalSort nodes cs).Nodup := by
    refine List.Nodup.of_map (·.id) ?_
    rw [hmapid]
    exact hQnd
  have hsort_sub : ∀ m ∈ topologicalSort nodes cs, m ∈ nodes := by
    intro m hm
    rw [htop] at hm
    obtain ⟨u, hu, hg⟩ := List.mem_filterMap.mp hm
    exact getAL_nodeMap_val nodes u m hg
  have hsort_sup : ∀ n ∈ nodes, n ∈ topologicalSort nodes cs := by
    intro n hn
    have hidQ : n.id ∈ Q := hQcov n.id (List.mem_map_of_mem _ hn)
    rw [← hmapid] at hidQ
    obtain ⟨m, hm, hmid⟩ := List.mem_map.mp hidQ
    have hmn : m = n :=
      List.inj_on_of_nodup_map hnd (hsort_sub m hm) hn hmid
    rw [← hmn]
    exact hm
  refine ⟨(List.perm_ext_iff_of_nodup hsortnd hnodesnd).mpr
    (fun a => ⟨hsort_sub a, hsort_sup a⟩), ?_⟩
  intro c hc
  rw [findIdx_map_id c.source, findIdx_map_id c.target, hmapid]
  have hsrcQ : c.source ∈ Q := hQcov c.source (hwfS c hc)
  have htgtQ : c.target ∈ Q := hQcov c.target (hwfT c hc)
  have hi : Q.findIdx (fun v => v = c.source) < Q.length :=
    List.findIdx_lt_length_of_exists ⟨c.source, hsrcQ, by simp⟩
  have hj : Q.findIdx (fun v => v = c.target) < Q.length :=
    List.findIdx_lt_length_of_exists ⟨c.target, htgtQ, by simp⟩
  have h1 : Q.get ⟨Q.findIdx (fun v => v = c.source), hi⟩ = c.source := by
    have h2 := @List.findIdx_getElem _ (fun v => v = c.source) Q hi
    simpa using h2
  have h2 : Q.get ⟨Q.findIdx (fun v => v = c.target), hj⟩ = c.target := by
    have h3 := @List.findIdx_getElem _ (fun v => v = c.target) Q hj
    simpa using h3
  by_contra hcon
  push_neg at hcon
  rcases Nat.eq_or_lt_of_le hcon with heqi | hlt
  · have h2' : Q.get ⟨Q.findIdx (fun v => v = c.source), hi⟩ = c.target := by
      rw [← h2]
      congr 1
      exact Fin.ext heqi.symm
    have hst : c.source = c.target := by
      rw [← h1, h2']
    have := hr c hc
    rw [hst] at this
    omega
  · have hR := List.pairwise_iff_getElem.mp hQpair
      (Q.findIdx (fun v => v = c.target))
      (Q.findIdx (fun v => v = c.source)) hj hi hlt
    rw [show Q[Q.findIdx (fun v => v = c.target)] =
        Q.get ⟨Q.findIdx (fun v => v = c.target), hj⟩ from rfl,
      show Q[Q.findIdx (fun v => v = c.source)] =
        Q.get ⟨Q.findIdx (fun v => v = c.source), hi⟩ from rfl,
      h1, h2] at hR
    exact hR c hc ⟨rfl, rfl⟩

/-- The chain example of C2: nodes A → B → C, inserted in the order
C, A, B. -/
def chainA : NodeData := { id := "A", label := "Loader A", kind := "dataLoader" }

/-- Middle node of the C2 chain example. -/
def chainB : NodeData := { id := "B", label := "Scaler B", kind := "scaler" }

/-- Last node of the C2 chain example. -/
def chainC : NodeData := { id := "C", label := "Model C", kind := "classifier" }

/-- The connections A → B and B → C of the C2 chain example. -/
def chainConns : List ConnectionData :=
  [{ id := "eAB", source := "A", target := "B",
     sourceOutput := "data", targetInput := "data" },
   { id := "eBC", source := "B", target := "C",
     sourceOutput := "data", targetInput := "data" }]

/-- First of the two independent zero-in-degree nodes of the C2 example. -/
def indepX : NodeData := { id := "X", label := "X", kind := "dataLoader" }

/-- Second of the two independent zero-in-degree nodes of the C2 example. -/
def indepY : NodeData := { id := "Y", label := "Y", kind := "dataLoader" }

/-- C2: for every acyclic graph — acyclicity witnessed by a rank function
strictly increasing along every connection, with pairwise-distinct node ids
and connection endpoints among the nodes — `topologicalSort` returns a
permutation of the nodes in which, for every connection, the source node
strictly precedes the target node (part 1); moreover the strictly FIFO
tie-break of Kahn's algorithm schedules the linear chain A→B→C whose nodes
were inserted in the order C, A, B exactly as [A, B, C] (part 2), and keeps
two independent zero-in-degree nodes X, Y in their insertion order
(part 3). -/
theorem C2_topologicalSort_kahn_order :
    (∀ (nodes : List NodeData) (cs : List ConnectionData)
       (r : String → Nat),
      (nodes.map (·.id)).Nodup →
      (∀ c ∈ cs, c.source ∈ nodes.map (·.id)) →
      (∀ c ∈ cs, c.target ∈ nodes.map (·.id)) →
      (∀ c ∈ cs, r c.source < r c.target) →
      (topologicalSort nodes cs).Perm nodes ∧
      ∀ c ∈ cs,
        (topologicalSort nodes cs).findIdx (fun n => n.id = c.source) <
          (topologicalSort nodes cs).findIdx (fun n => n.id = c.target)) ∧
    topologicalSort [chainC, chainA, chainB] chainConns =
      [chainA, chainB, chainC] ∧
    topologicalSort [indepX, indepY] [] = [indepX, indepY] := by
  refine ⟨?_, by decide, by decide⟩
  intro nodes cs r hnd hwfS hwfT hrk
  exact topologicalSort_perm_and_order nodes cs hnd hwfS hwfT r hrk

/-- Witness instantiating C2's general part on the concrete chain graph with
an explicit rank function, discharging every hypothesis by computation. -/
theorem C2_topologicalSort_kahn_order_witness :
    (([chainC, chainA, chainB].map (·.id)).Nodup ∧
     (∀ c ∈ chainConns, c.source ∈ [chainC, chainA, chainB].map (·.id)) ∧
     (∀ c ∈ chainConns, c.target ∈ [chainC, chainA, chainB].map (·.id)) ∧
     (∀ c ∈ chainConns,
        (fun v => if v = "A" then 0 else if v = "B" then 1 else 2) c.source <
          (fun v => if v = "A" then 0 else if v = "B" then 1 else 2)
            c.target)) ∧
    ((topologicalSort [chainC, chainA, chainB] chainConns).Perm
        [chainC, chainA, chainB] ∧
     ∀ c ∈ chainConns,
       (topologicalSort [chainC, chainA, chainB] chainConns).findIdx
           (fun n => n.id = c.source) <
         (topologicalSort [chainC, chainA, chainB] chainConns).findIdx
           (fun n => n.id = c.target)) :=
  ⟨⟨by decide, by decide, by decide, by decide⟩,
   C2_topologicalSort_kahn_order.1 [chainC, chainA, chainB] chainConns
     (fun v => if v = "A" then 0 else if v = "B" then 1 else 2)
     (by decide) (by decide) (by decide) (by decide)⟩
